import Mathlib

/-!
# Menu.js: payment-gated save, save-as and print

A shallow embedding of `src/Menu/Menu.js` (the `Menu` React component).

* JavaScript strings are Lean strings (sequences of Unicode scalar values); `length` is
  counted in UTF-16 code units as JavaScript does.
* Every call that leaves the component and answers (wallet, contracts, storage backends,
  dialogs, the document engine, the clock) is a field of `Collab`, a function on an arbitrary
  world type `W`; the world decides the outcome of each call. A call that answers nothing
  (`alert`, `console.error`, the print window, the host callback `updateSelectedFile`) is
  recorded only.
* A method of the component is a function from the system before the call to a `Run`: the
  returned value or the thrown error message, the system after it, and the calls it made.
* An awaited call settles: a promise resolves or rejects and a dialog is answered. One
  handler runs at a time, and `setState` takes effect before the next read of `this.state`.
* Token amounts are exact rationals where JavaScript has floating-point numbers.
-/

namespace Menu

/-! ## Strings -/

/-- White space and line terminators, the code points `String.prototype.trim` strips. -/
def isJsWhiteSpace (c : Char) : Bool :=
  let n := c.toNat
  n == 0x09 || n == 0x0A || n == 0x0B || n == 0x0C || n == 0x0D || n == 0x20 ||
  n == 0xA0 || n == 0x1680 || (0x2000 ≤ n && n ≤ 0x200A) || n == 0x2028 || n == 0x2029 ||
  n == 0x202F || n == 0x205F || n == 0x3000 || n == 0xFEFF

/-- The method `String.prototype.trim`. -/
def jsTrim (s : String) : String :=
  ⟨((s.data.dropWhile isJsWhiteSpace).reverse.dropWhile isJsWhiteSpace).reverse⟩

/-- The property `String.prototype.length`: the number of UTF-16 code units. -/
def jsLength (s : String) : Nat :=
  (s.data.map (fun c => if c.toNat < 0x10000 then 1 else 2)).sum

/-- The character class `[a-zA-Z0-9- ]` of the regular expression in `_validateName`. -/
def inNameClass (c : Char) : Bool :=
  ('a'.toNat ≤ c.toNat && c.toNat ≤ 'z'.toNat) ||
  ('A'.toNat ≤ c.toNat && c.toNat ≤ 'Z'.toNat) ||
  ('0'.toNat ≤ c.toNat && c.toNat ≤ '9'.toNat) ||
  c == '-' || c == ' '

/-- The test `/^[a-zA-Z0-9- ]*$/.test(filename)`. -/
def nameRegexTest (filename : String) : Bool :=
  filename.data.all inNameClass

/-- The method `_validateName(filename)`. -/
def _validateName (filename : String) : Bool :=
  let filename := jsTrim filename
  if filename = "default" ∨ filename = "Untitled" then
    false
  else if filename = "" then
    false
  else if jsLength filename > 30 then
    false
  else if nameRegexTest filename = false then
    false
  else
    true

/-- The filename rule in the words of the specification, on the trimmed name: non-empty, not
a reserved name, at most 30 characters, and only ASCII letters, digits, hyphens and spaces. -/
def ValidName (t : String) : Prop :=
  t ≠ "" ∧ t ≠ "default" ∧ t ≠ "Untitled" ∧ t.length ≤ 30 ∧
    ∀ ch ∈ t.data, ch.isAlpha = true ∨ ch.isDigit = true ∨ ch = '-' ∨ ch = ' '

/-- The conversion `Number.prototype.toString(16)` on a non-negative integer. -/
def toString16 (n : Nat) : String :=
  ⟨Nat.toDigits 16 n⟩

/-- The value of a lowercase hexadecimal digit, 0 for any other character. -/
def hexDigitValue (ch : Char) : Nat :=
  if '0'.toNat ≤ ch.toNat ∧ ch.toNat ≤ '9'.toNat then ch.toNat - '0'.toNat
  else if 'a'.toNat ≤ ch.toNat ∧ ch.toNat ≤ 'f'.toNat then ch.toNat - 'a'.toNat + 10
  else 0

/-- The number a lowercase hexadecimal numeral denotes, most significant digit first. -/
def hexValue (s : String) : Nat :=
  s.data.foldl (fun acc ch => 16 * acc + hexDigitValue ch) 0

/-- The lowercase hexadecimal digits. -/
def isLowerHexDigit (ch : Char) : Bool :=
  "0123456789abcdef".data.contains ch

/-! ## Configuration and records -/

/-- The keys of `TOKEN_COST` used by the component. -/
inductive Op where
  | PRINT
  | SAVE
  | SAVE_AS
  deriving DecidableEq, Repr

/-- An entry of `TOKEN_COST`. The table is imported from `utils/constants.js`, which is not
part of the source tree; an entry is taken by the two ways `Menu.js` reads it: its text in a
template literal and its numeric value in the comparison with `numOfTokens`. -/
structure Cost where
  text : String
  value : ℚ
  deriving DecidableEq, Repr

/-- The tables imported from `utils/constants.js` (not part of the source tree).
`SUPPORTED_NETWORKS` is given as `Object.entries` enumerates it, each key with the `chainId`
of its entry; the address tables map a key to its address, `none` for `undefined`. -/
structure Config where
  SUPPORTED_NETWORKS : List (String × String)
  MEDT_TOKEN_ADDRESSES : String → Option String
  MEDI_INVOICE_ADDRESSES : String → Option String
  TOKEN_COST : Op → Cost

/-- The object `fileData` built by `doSaveAs` and handed to the upload backends. -/
structure FileData where
  name : String
  content : String
  created : String
  modified : String
  deriving DecidableEq, Repr

/-- Modelled from the spec: the class `Files` of `storage/LocalStorage.js`, which is not part
of the source tree. A file record {createdTimestamp, modifiedTimestamp, encodedContent, name},
built as `new Files(created, modified, content, name)`. -/
structure Files where
  created : String
  modified : String
  content : String
  name : String
  deriving DecidableEq, Repr

/-- Modelled from the spec: `getFile(name) -> FileRecord | NotFound` of the persistence
collaborator (class `Local` of `storage/LocalStorage.js`, not part of the source tree),
keyed by filename. -/
def Local_getFile (store : List Files) (name : String) : Option Files :=
  store.find? (fun f => f.name = name)

/-- Modelled from the spec: `saveFile(FileRecord) -> void` of the persistence collaborator,
keyed by filename with overwrite semantics (no versioning). -/
def Local_saveFile (store : List Files) (file : Files) : List Files :=
  file :: store.filter (fun f => f.name ≠ file.name)

/-- The field `saveSuccessDetails` of the component state. -/
structure SaveSuccessDetails where
  filename : String
  cid : String
  gatewayUrl : String
  deriving DecidableEq, Repr

/-- The component state `this.state`. `numOfTokens` is an exact rational where JavaScript
has a floating-point number. -/
structure State where
  numOfTokens : ℚ
  isUploading : Bool
  uploadMethod : String
  showUploadMethodModal : Bool
  showStorachaSetupModal : Bool
  showSaveSuccessModal : Bool
  saveSuccessDetails : SaveSuccessDetails
  selectedUploadMethod : Option String
  deriving DecidableEq, Repr

/-- The state set by the constructor. -/
def State.initial : State :=
  { numOfTokens := 0
    isUploading := false
    uploadMethod := "storacha"
    showUploadMethodModal := false
    showStorachaSetupModal := false
    showSaveSuccessModal := false
    saveSuccessDetails := { filename := "", cid := "", gatewayUrl := "" }
    selectedUploadMethod := none }

/-! ## Observable calls -/

/-- A call the component makes, in the order made. A call that can throw carries whether it
returned (`ok = true`) or threw; an upload carries the content address it returned, `none`
when it threw. `console.log` is not recorded. -/
inductive Event where
  | alert (message : String)
  | consoleError (label : String) (error : String)
  | getNetwork (ok : Bool)
  | transfer (mediToken : Option String) (mediInvoice : Option String) (amount : Cost) (ok : Bool)
  | wait (ok : Bool)
  | getUserTokens (mediInvoice : Option String) (ok : Bool)
  | prompt (message : String) (answer : Option String)
  | promptUploadMethod (method : String)
  | promptStorachaAccountSetup (action : String)
  | create (ok : Bool)
  | login (email : String) (ok : Bool)
  | setCurrentSpace (space : String) (ok : Bool)
  | uploadDirectory (fileData : FileData) (cid : Option String)
  | lighthouseUpload (fileData : FileData) (cid : Option String)
  | windowOpen (ok : Bool)
  | documentWrite (content : String)
  | printWindowPrint
  | printWindowClose
  | _saveFile (file : Files)
  | updateSelectedFile (name : String)
  | showSaveSuccessModal (filename : String) (cid : String) (gatewayUrl : String)
  deriving DecidableEq, Repr

/-- The protected effects: rendering to the print window, persisting a file record and
notifying the host of the selection. -/
def Event.isEffect : Event → Bool
  | .windowOpen _ => true
  | .documentWrite _ => true
  | .printWindowPrint => true
  | .printWindowClose => true
  | ._saveFile _ => true
  | .updateSelectedFile _ => true
  | _ => false

/-- A debit call: `contract.transfer` on the token contract. -/
def Event.isDebit : Event → Bool
  | .transfer _ _ _ _ => true
  | _ => false

/-- A balance read from the ledger: `contract.getUserTokens()`. -/
def Event.isBalanceRead : Event → Bool
  | .getUserTokens _ _ => true
  | _ => false

/-- A `console.error` call with the given first argument. -/
def Event.hasLabel (label : String) : Event → Bool
  | .consoleError l _ => l == label
  | _ => false

/-- The success summary shown at the end of a Save As. -/
def Event.isSuccessModal : Event → Bool
  | .showSaveSuccessModal _ _ _ => true
  | _ => false

/-- The dialog in which the user chooses the upload method. -/
def Event.isMethodPrompt : Event → Bool
  | .promptUploadMethod _ => true
  | _ => false

/-- A call of an upload backend: the w3up client or the Lighthouse SDK. -/
def Event.isUpload : Event → Bool
  | .create _ => true
  | .login _ _ => true
  | .setCurrentSpace _ _ => true
  | .uploadDirectory _ _ => true
  | .lighthouseUpload _ _ => true
  | _ => false

/-! ## The world outside the component -/

/-- The collaborators of the component over a world `W`. A call that can throw returns
`Except.error` with the message of the error. -/
structure Collab (W : Type) where
  /-- The chain id: `new ethers.providers.Web3Provider(window.ethereum)`,
  `provider.getSigner()` and `provider.getNetwork()`. -/
  getNetwork : W → Except String Nat × W
  /-- The debit: `new ethers.Contract(mediToken, meditokenabi, signer)` and
  `contract.transfer(mediInvoice, ethers.utils.parseEther(cost))`. -/
  transfer : Option String → Option String → Cost → W → Except String Unit × W
  /-- The confirmation `tx.wait()`. -/
  wait : W → Except String Unit × W
  /-- The balance in base units: `new ethers.Contract(mediInvoice, medinvoiceabi, signer)`
  and `contract.getUserTokens()`. -/
  getUserTokens : Option String → W → Except String Nat × W
  /-- The read `localStorage.getItem(key)`, `none` for `null`. -/
  getItem : String → W → Option String
  /-- The dialog `window.prompt(message)`, `none` for `null`. -/
  prompt : String → W → Option String × W
  /-- The user's click in the upload method modal, the argument of `resolveUploadMethod`. -/
  resolveUploadMethod : W → String × W
  /-- The user's click in the setup modal, the argument of `resolveStorachaSetup`. -/
  resolveStorachaSetup : W → String × W
  /-- The w3up call `create()`. -/
  create : W → Except String Unit × W
  /-- The w3up call `client.login(email)`. -/
  login : String → W → Except String Unit × W
  /-- The w3up call `client.setCurrentSpace(space)`. -/
  setCurrentSpace : String → W → Except String Unit × W
  /-- The w3up call `client.uploadDirectory([formattedFile])` and `cid.toString()`. -/
  uploadDirectory : FileData → W → Except String String × W
  /-- The Lighthouse call `lighthouse.upload([file], API_KEY, null, cb)` and
  `output.data.Hash`. -/
  lighthouseUpload : FileData → String → W → Except String String × W
  /-- The document engine call `AppGeneral.getCurrentHTMLContent()`. -/
  getCurrentHTMLContent : W → String × W
  /-- The document engine call `AppGeneral.getSpreadsheetContent()`. -/
  getSpreadsheetContent : W → String × W
  /-- The call `window.open("", "", "left=100,top=100")`, `false` for `null`. -/
  windowOpen : W → Bool × W
  /-- The clock `new Date().toString()`. -/
  dateToString : W → String × W
  /-- The builtin `encodeURIComponent`; on a string of Unicode scalar values it does not
  throw. -/
  encodeURIComponent : String → String

/-- The system: the world, `this.state`, the records held by `this.store` and
`this.props.file`. -/
structure Sys (W : Type) where
  world : W
  state : State
  store : List Files
  file : String

/-- The outcome of running a method: the value returned or the message of the error thrown,
the system afterwards and the calls made. -/
structure Run (W α : Type) where
  result : Except String α
  sys : Sys W
  events : List Event

/-- A method of the component. -/
def Act (W α : Type) : Type :=
  Sys W → Run W α

/-- The statement `return a`. -/
def Act.pure {W α : Type} (a : α) : Act W α :=
  fun s => ⟨.ok a, s, []⟩

/-- The statement `throw new Error(message)`. -/
def Act.throw {W α : Type} (message : String) : Act W α :=
  fun s => ⟨.error message, s, []⟩

/-- Sequencing: the second part runs only when the first returned. -/
def Act.bind {W α β : Type} (x : Act W α) (f : α → Act W β) : Act W β :=
  fun s =>
    let r := x s
    match r.result with
    | .ok a =>
      let r2 := f a r.sys
      ⟨r2.result, r2.sys, r.events ++ r2.events⟩
    | .error e => ⟨.error e, r.sys, r.events⟩

instance instMonadAct {W : Type} : Monad (Act W) where
  pure := Act.pure
  bind := Act.bind

/-- The statement `try body catch (error) handler`. -/
def Act.tryCatch {W α : Type} (body : Act W α) (handler : String → Act W α) : Act W α :=
  fun s =>
    let r := body s
    match r.result with
    | .ok a => ⟨.ok a, r.sys, r.events⟩
    | .error e =>
      let r2 := handler e r.sys
      ⟨r2.result, r2.sys, r.events ++ r2.events⟩

/-- The statement `try body finally fin`, for a `fin` that does not throw. -/
def Act.tryFinally {W α : Type} (body : Act W α) (fin : Act W Unit) : Act W α :=
  fun s =>
    let r := body s
    let r2 := fin r.sys
    ⟨r.result, r2.sys, r.events ++ r2.events⟩

/-- A call that is observed and returns nothing. -/
def emit {W : Type} (e : Event) : Act W Unit :=
  fun s => ⟨.ok (), s, [e]⟩

/-- The call `this.setState(update)`, applied at once. -/
def setState {W : Type} (update : State → State) : Act W Unit :=
  fun s => ⟨.ok (), { s with state := update s.state }, []⟩

/-- The read `this.state`. -/
def getState {W : Type} : Act W State :=
  fun s => ⟨.ok s.state, s, []⟩

/-- The read `this.props.file`. -/
def getPropsFile {W : Type} : Act W String :=
  fun s => ⟨.ok s.file, s, []⟩

/-- A call to the world that cannot throw, recorded as `events`. -/
def ask {W α : Type} (f : W → α × W) (events : α → List Event) : Act W α :=
  fun s =>
    let r := f s.world
    ⟨.ok r.1, { s with world := r.2 }, events r.1⟩

/-- Whether a call returned. -/
def returned {α : Type} : Except String α → Bool
  | .ok _ => true
  | .error _ => false

/-- The content address an upload returned. -/
def address : Except String String → Option String
  | .ok cid => some cid
  | .error _ => none

/-- A call to the world that can throw, recorded with its outcome. -/
def askE {W α : Type} (f : W → Except String α × W) (event : Except String α → Event) :
    Act W α :=
  fun s =>
    let r := f s.world
    ⟨r.1, { s with world := r.2 }, [event r.1]⟩

/-- A read of the world. -/
def readWorld {W α : Type} (f : W → α) : Act W α :=
  fun s => ⟨.ok (f s.world), s, []⟩

/-- The call `this.store._getFile(name)`. -/
def _getFile {W : Type} (name : String) : Act W (Option Files) :=
  fun s => ⟨.ok (Local_getFile s.store name), s, []⟩

/-- The call `this.store._saveFile(file)`. -/
def _saveFile {W : Type} (file : Files) : Act W Unit :=
  fun s => ⟨.ok (), { s with store := Local_saveFile s.store file }, [Event._saveFile file]⟩

/-! ## The methods of `Menu` -/

/-- The loop of `getNetworkKey` over `Object.entries(SUPPORTED_NETWORKS)`. -/
def findNetwork (chainIdHex : String) : List (String × String) → Option String
  | [] => none
  | (network, chainId) :: rest =>
    if chainId = chainIdHex then some network else findNetwork chainIdHex rest

/-- The method `getNetworkKey(provider)`. -/
def getNetworkKey {W : Type} (c : Collab W) (cfg : Config) : Act W String := do
  let chainId ← askE c.getNetwork (fun r => Event.getNetwork (returned r))
  let chainIdHex := "0x" ++ toString16 chainId
  match findNetwork chainIdHex cfg.SUPPORTED_NETWORKS with
  | some network => Act.pure network
  | none => Act.throw "Unsupported network"

/-- The object returned by `getContractAddresses`. -/
structure ContractAddresses where
  mediToken : Option String
  mediInvoice : Option String
  deriving DecidableEq, Repr

/-- The method `getContractAddresses(provider)`. -/
def getContractAddresses {W : Type} (c : Collab W) (cfg : Config) : Act W ContractAddresses := do
  let networkKey ← getNetworkKey c cfg
  Act.pure
    { mediToken := cfg.MEDT_TOKEN_ADDRESSES networkKey
      mediInvoice := cfg.MEDI_INVOICE_ADDRESSES networkKey }

/-- The method `fetchUserTokens()`. -/
def fetchUserTokens {W : Type} (c : Collab W) (cfg : Config) : Act W Unit :=
  Act.tryCatch
    (do
      let addresses ← getContractAddresses c cfg
      let userTokens ← askE (c.getUserTokens addresses.mediInvoice)
        (fun r => Event.getUserTokens addresses.mediInvoice (returned r))
      setState (fun st => { st with numOfTokens := (userTokens : ℚ) / 10 ^ 18 }))
    (fun error => emit (.consoleError "Error fetching user tokens:" error))

/-- The method `handleNetworkChange(chainId)`, also the body of `componentDidMount`. -/
def handleNetworkChange {W : Type} (c : Collab W) (cfg : Config) : Act W Unit :=
  fetchUserTokens c cfg

/-- The method `updateTokenBalance(operation)`. -/
def updateTokenBalance {W : Type} (c : Collab W) (cfg : Config) (operation : Op) : Act W Unit :=
  Act.tryCatch
    (do
      let addresses ← getContractAddresses c cfg
      askE (c.transfer addresses.mediToken addresses.mediInvoice (cfg.TOKEN_COST operation))
        (fun r =>
          Event.transfer addresses.mediToken addresses.mediInvoice (cfg.TOKEN_COST operation)
            (returned r))
      askE c.wait (fun r => Event.wait (returned r))
      fetchUserTokens c cfg)
    (fun error => do
      emit (.consoleError "Error transferring tokens:" error)
      Act.throw error)

/-- The truth value of a string or `null` in a condition. -/
def truthy : Option String → Bool
  | some s => s != ""
  | none => false

/-- The method `isStorachaAccountSetup()` on the world it reads. -/
def isStorachaAccountSetup {W : Type} (c : Collab W) (w : W) : Bool :=
  let savedEmail := c.getItem "ipfsUserEmail" w
  let savedSpace := c.getItem "ipfsUserSpace" w
  truthy savedEmail && truthy savedSpace

/-- The method `promptUploadMethod()`; it returns when the user has clicked. -/
def promptUploadMethod {W : Type} (c : Collab W) : Act W String := do
  setState (fun st => { st with showUploadMethodModal := true, selectedUploadMethod := none })
  let method ← ask c.resolveUploadMethod (fun method => [Event.promptUploadMethod method])
  setState (fun st => { st with showUploadMethodModal := false, selectedUploadMethod := some method })
  Act.pure method

/-- The method `promptStorachaAccountSetup()`; it returns when the user has clicked. -/
def promptStorachaAccountSetup {W : Type} (c : Collab W) : Act W String := do
  setState (fun st => { st with showStorachaSetupModal := true })
  let action ← ask c.resolveStorachaSetup (fun action => [Event.promptStorachaAccountSetup action])
  setState (fun st => { st with showStorachaSetupModal := false })
  Act.pure action

/-- The method `uploadToIPFSStoracha(fileData)`. -/
def uploadToIPFSStoracha {W : Type} (c : Collab W) (fileData : FileData) : Act W String :=
  Act.tryCatch
    (do
      let savedEmail ← readWorld (c.getItem "ipfsUserEmail")
      let savedSpace ← readWorld (c.getItem "ipfsUserSpace")
      if !truthy savedEmail || !truthy savedSpace then
        Act.throw
          "IPFS account not set up. Please set up your IPFS account in the Files section first."
      else do
        askE c.create (fun r => Event.create (returned r))
        askE (c.login (savedEmail.getD ""))
          (fun r => Event.login (savedEmail.getD "") (returned r))
        askE (c.setCurrentSpace (savedSpace.getD ""))
          (fun r => Event.setCurrentSpace (savedSpace.getD "") (returned r))
        askE (c.uploadDirectory fileData) (fun r => Event.uploadDirectory fileData (address r)))
    (fun error => do
      emit (.consoleError "Storacha Upload Error:" error)
      Act.throw error)

/-- The constant `API_KEY` of `uploadToIpfsLighthouse`. -/
def API_KEY : String :=
  "61d16b3b.f3d3588afcfd48afa1108c754628cc6e"

/-- The method `uploadToIpfsLighthouse(fileData)`. -/
def uploadToIpfsLighthouse {W : Type} (c : Collab W) (fileData : FileData) : Act W String :=
  Act.tryCatch
    (askE (c.lighthouseUpload fileData API_KEY)
      (fun r => Event.lighthouseUpload fileData (address r)))
    (fun error => do
      emit (.consoleError "Lighthouse Upload Error:" error)
      Act.throw error)

/-- The `try`, `catch`, `finally` statement of `chooseAndUploadToIPFS`, which follows the
choice of the upload method. -/
def uploadWithMethod {W : Type} (c : Collab W) (fileData : FileData) (uploadMethod : String) :
    Act W String :=
  Act.tryFinally
    (Act.tryCatch
      (do
        setState (fun st => { st with isUploading := true, uploadMethod := uploadMethod })
        if uploadMethod = "storacha" then do
          let isSetup ← readWorld (isStorachaAccountSetup c)
          if !isSetup then do
            let _ ← promptStorachaAccountSetup c
            Act.throw "Storacha account not set up"
          else
            uploadToIPFSStoracha c fileData
        else if uploadMethod = "lighthouse" then
          uploadToIpfsLighthouse c fileData
        else
          Act.throw "Invalid upload method selected")
      (fun error => do
        emit (.consoleError "IPFS Upload Error:" error)
        Act.throw error))
    (setState (fun st => { st with isUploading := false }))

/-- The method `chooseAndUploadToIPFS(fileData)`. -/
def chooseAndUploadToIPFS {W : Type} (c : Collab W) (fileData : FileData) : Act W String := do
  let uploadMethod ← promptUploadMethod c
  uploadWithMethod c fileData uploadMethod

/-- The method `showSaveSuccessModal(filename, cid, gatewayUrl)`. -/
def showSaveSuccessModal {W : Type} (filename cid gatewayUrl : String) : Act W Unit := do
  emit (.showSaveSuccessModal filename cid gatewayUrl)
  setState (fun st =>
    { st with
      showSaveSuccessModal := true
      saveSuccessDetails := { filename := filename, cid := cid, gatewayUrl := gatewayUrl } })

/-- The method `doPrint()`. -/
def doPrint {W : Type} (c : Collab W) (cfg : Config) : Act W Unit := do
  let state ← getState
  if state.numOfTokens < (cfg.TOKEN_COST .PRINT).value then
    emit (.alert ("You need at least " ++ (cfg.TOKEN_COST .PRINT).text ++ " MediToken to print"))
  else
    Act.tryCatch
      (do
        updateTokenBalance c cfg .PRINT
        let content ← ask c.getCurrentHTMLContent (fun _ => [])
        let printWindow ← ask c.windowOpen (fun opened => [Event.windowOpen opened])
        if printWindow then do
          emit (.documentWrite content)
          emit .printWindowPrint
          emit .printWindowClose
        else
          Act.throw "Cannot read properties of null (reading 'document')")
      (fun _ => emit (.alert "Failed to process token payment"))

/-- The method `doSave()`. -/
def doSave {W : Type} (c : Collab W) (cfg : Config) : Act W Unit := do
  let file ← getPropsFile
  if file = "default" then
    emit (.alert ("Cannot update " ++ file ++ " file!"))
  else
    let state ← getState
    if state.numOfTokens < (cfg.TOKEN_COST .SAVE).value then
      emit (.alert ("You need at least " ++ (cfg.TOKEN_COST .SAVE).text ++ " MediToken to save"))
    else
      Act.tryCatch
        (do
          updateTokenBalance c cfg .SAVE
          let serialized ← ask c.getSpreadsheetContent (fun _ => [])
          let content := c.encodeURIComponent serialized
          let data ← _getFile file
          match data with
          | none => Act.throw "Cannot read properties of undefined (reading 'created')"
          | some data => do
            let modified ← ask c.dateToString (fun _ => [])
            let record : Files :=
              { created := data.created, modified := modified, content := content, name := file }
            _saveFile record
            emit (.updateSelectedFile file)
            emit (.alert ("File " ++ file ++ " updated successfully!")))
        (fun _ => emit (.alert "Failed to process token payment"))

/-- The gateway URL expression of `doSaveAs`. -/
def gatewayUrl (uploadMethod cid : String) : String :=
  if uploadMethod = "storacha" then
    "https://w3s.link/ipfs/" ++ cid
  else
    "https://gateway.lighthouse.storage/ipfs/" ++ cid

/-- The method `doSaveAs()`. -/
def doSaveAs {W : Type} (c : Collab W) (cfg : Config) : Act W Unit := do
  let answer ← ask (c.prompt "Enter filename:")
    (fun answer => [Event.prompt "Enter filename:" answer])
  match answer with
  | none => Act.pure ()
  | some filename =>
    if filename = "" then
      Act.pure ()
    else do
      let state ← getState
      if state.numOfTokens < (cfg.TOKEN_COST .SAVE_AS).value then
        emit (.alert
          ("You need at least " ++ (cfg.TOKEN_COST .SAVE_AS).text ++ " MediToken to save"))
      else if _validateName filename then
        Act.tryCatch
          (do
            let serialized ← ask c.getSpreadsheetContent (fun _ => [])
            let content := c.encodeURIComponent serialized
            let created ← ask c.dateToString (fun _ => [])
            let modified ← ask c.dateToString (fun _ => [])
            let fileData : FileData :=
              { name := filename, content := content, created := created, modified := modified }
            let cid ← chooseAndUploadToIPFS c fileData
            updateTokenBalance c cfg .SAVE_AS
            let record : Files :=
              { created := fileData.created, modified := fileData.modified
                content := content, name := filename }
            _saveFile record
            emit (.updateSelectedFile filename)
            let state ← getState
            showSaveSuccessModal filename cid (gatewayUrl state.uploadMethod cid))
          (fun error => do
            emit (.consoleError "Save As error:" error)
            emit (.alert ("Error saving file: " ++ error)))
      else
        emit (.alert ("Invalid filename: " ++ filename))

/-- The handlers the rendered buttons run, by operation kind: Print runs `doPrint`, Save runs
`doSave` and Save As runs `doSaveAs`. -/
def onClick {W : Type} (c : Collab W) (cfg : Config) : Op → Act W Unit
  | .PRINT => doPrint c cfg
  | .SAVE => doSave c cfg
  | .SAVE_AS => doSaveAs c cfg

/-! ## A scripted world

A world whose answers are fixed in advance, to run the methods on concrete inputs. -/

/-- The answers of a scripted world. -/
structure Script where
  chainId : Except String Nat
  transfer : Except String Unit
  wait : Except String Unit
  userTokens : Except String Nat
  email : Option String
  space : Option String
  filename : Option String
  method : String
  upload : Except String String
  html : String
  spreadsheet : String
  popup : Bool
  date : String

/-- The bytes of a character in UTF-8, percent-encoded. -/
def percentEncode (ch : Char) : List Char :=
  (String.utf8EncodeChar ch).flatMap (fun b =>
    ['%', (Nat.digitChar (b.toNat / 16)).toUpper, (Nat.digitChar (b.toNat % 16)).toUpper])

/-- The characters `encodeURIComponent` leaves as they are. -/
def isUriUnreserved (ch : Char) : Bool :=
  ch.isAlphanum || "-_.!~*'()".data.contains ch

/-- The builtin `encodeURIComponent` on a string of Unicode scalar values. -/
def percentEncodeComponent (s : String) : String :=
  ⟨s.data.flatMap (fun ch => if isUriUnreserved ch then [ch] else percentEncode ch)⟩

/-- The collaborators of a scripted world: each call answers from the script and leaves the
world as it is. -/
def scripted : Collab Script where
  getNetwork w := (w.chainId, w)
  transfer _ _ _ w := (w.transfer, w)
  wait w := (w.wait, w)
  getUserTokens _ w := (w.userTokens, w)
  getItem key w :=
    if key = "ipfsUserEmail" then w.email else if key = "ipfsUserSpace" then w.space else none
  prompt _ w := (w.filename, w)
  resolveUploadMethod w := (w.method, w)
  resolveStorachaSetup w := ("cancel", w)
  create w := (.ok (), w)
  login _ w := (.ok (), w)
  setCurrentSpace _ w := (.ok (), w)
  uploadDirectory _ w := (w.upload, w)
  lighthouseUpload _ _ w := (w.upload, w)
  getCurrentHTMLContent w := (w.html, w)
  getSpreadsheetContent w := (w.spreadsheet, w)
  windowOpen w := (w.popup, w)
  dateToString w := (w.date, w)
  encodeURIComponent := percentEncodeComponent

/-- A configuration with one network, Sepolia, and the costs PRINT 1, SAVE 2, SAVE_AS 3. -/
def sampleConfig : Config where
  SUPPORTED_NETWORKS := [("SEPOLIA", "0xaa36a7")]
  MEDT_TOKEN_ADDRESSES key := if key = "SEPOLIA" then some "0xT0KEN" else none
  MEDI_INVOICE_ADDRESSES key := if key = "SEPOLIA" then some "0x1NV01CE" else none
  TOKEN_COST op :=
    match op with
    | .PRINT => { text := "1", value := 1 }
    | .SAVE => { text := "2", value := 2 }
    | .SAVE_AS => { text := "3", value := 3 }

/-- A script in which every call succeeds: Sepolia, a ledger balance of 5 tokens, a Storacha
account that is set up, the filename "report" and the method Storacha. -/
def sampleScript : Script where
  chainId := .ok 11155111
  transfer := .ok ()
  wait := .ok ()
  userTokens := .ok (5 * 10 ^ 18)
  email := some "user@example.org"
  space := some "did:key:space"
  filename := some "report"
  method := "storacha"
  upload := .ok "bafyCid"
  html := "<table></table>"
  spreadsheet := "version:1.5 cell:A1"
  popup := true
  date := "Thu Nov 05 2026"

/-- The system of a freshly mounted component over a world, with a balance and an open
file. -/
def sampleSys (w : Script) (numOfTokens : ℚ) (store : List Files) (file : String) : Sys Script where
  world := w
  state := { State.initial with numOfTokens := numOfTokens }
  store := store
  file := file

/-- A script in which the Lighthouse upload fails. -/
def failingUploadScript : Script :=
  { sampleScript with method := "lighthouse", upload := .error "quota exceeded" }

/-- A script in which the user chooses Storacha and no account is set up. -/
def noAccountScript : Script :=
  { sampleScript with email := none, space := none }

/-- The world in which `doSaveAs` calls `chooseAndUploadToIPFS`: after the filename prompt,
the read of the spreadsheet content and the two reads of the clock. -/
def worldAtUpload {W : Type} (c : Collab W) (w : W) : W :=
  (c.dateToString (c.dateToString
    (c.getSpreadsheetContent (c.prompt "Enter filename:" w).2).2).2).2

/-! ## Properties of runs -/

/-- No call made by a run of `x` satisfies `p`. -/
def Avoids {W α : Type} (p : Event → Bool) (x : Act W α) : Prop :=
  ∀ s, ∀ e ∈ (x s).events, p e = false

/-! ## Sequencing lemmas -/

@[simp] theorem bind_eq {W α β : Type} (x : Act W α) (f : α → Act W β) :
    (x >>= f) = Act.bind x f := rfl

@[simp] theorem pure_eq {W α : Type} (a : α) : (Pure.pure a : Act W α) = Act.pure a := rfl

theorem avoids_pure {W α : Type} (p : Event → Bool) (a : α) : Avoids p (Act.pure a : Act W α) := by
  intro s e he
  simp [Act.pure] at he

theorem avoids_throw {W α : Type} (p : Event → Bool) (m : String) :
    Avoids p (Act.throw m : Act W α) := by
  intro s e he
  simp [Act.throw] at he

theorem avoids_bind {W α β : Type} {p : Event → Bool} {x : Act W α} {f : α → Act W β}
    (hx : Avoids p x) (hf : ∀ a, Avoids p (f a)) : Avoids p (Act.bind x f) := by
  intro s e he
  unfold Act.bind at he
  cases hr : (x s).result with
  | error m =>
    simp only [hr] at he
    exact hx s e he
  | ok a =>
    simp only [hr, List.mem_append] at he
    rcases he with he | he
    · exact hx s e he
    · exact hf a _ e he

theorem avoids_tryCatch {W α : Type} {p : Event → Bool} {x : Act W α} {h : String → Act W α}
    (hx : Avoids p x) (hh : ∀ m, Avoids p (h m)) : Avoids p (Act.tryCatch x h) := by
  intro s e he
  unfold Act.tryCatch at he
  cases hr : (x s).result with
  | ok a =>
    simp only [hr] at he
    exact hx s e he
  | error m =>
    simp only [hr, List.mem_append] at he
    rcases he with he | he
    · exact hx s e he
    · exact hh m _ e he

theorem avoids_tryFinally {W α : Type} {p : Event → Bool} {x : Act W α} {fin : Act W Unit}
    (hx : Avoids p x) (hfin : Avoids p fin) : Avoids p (Act.tryFinally x fin) := by
  intro s e he
  simp only [Act.tryFinally, List.mem_append] at he
  rcases he with he | he
  · exact hx s e he
  · exact hfin _ e he

theorem avoids_emit {W : Type} {p : Event → Bool} {e : Event} (h : p e = false) :
    Avoids p (emit e : Act W Unit) := by
  intro s e1 he
  simp only [emit, List.mem_singleton] at he
  rw [he]
  exact h

theorem avoids_setState {W : Type} (p : Event → Bool) (update : State → State) :
    Avoids p (setState update : Act W Unit) := by
  intro s e he
  simp [setState] at he

theorem avoids_getState {W : Type} (p : Event → Bool) : Avoids p (getState : Act W State) := by
  intro s e he
  simp [getState] at he

theorem avoids_getPropsFile {W : Type} (p : Event → Bool) :
    Avoids p (getPropsFile : Act W String) := by
  intro s e he
  simp [getPropsFile] at he

theorem avoids_readWorld {W α : Type} (p : Event → Bool) (f : W → α) :
    Avoids p (readWorld f : Act W α) := by
  intro s e he
  simp [readWorld] at he

theorem avoids_getFile {W : Type} (p : Event → Bool) (name : String) :
    Avoids p (_getFile name : Act W (Option Files)) := by
  intro s e he
  simp [_getFile] at he

theorem avoids_saveFile {W : Type} {p : Event → Bool} {file : Files}
    (h : p (Event._saveFile file) = false) : Avoids p (_saveFile file : Act W Unit) := by
  intro s e he
  simp only [_saveFile, List.mem_singleton] at he
  rw [he]
  exact h

theorem avoids_ask {W α : Type} {p : Event → Bool} {f : W → α × W} {events : α → List Event}
    (h : ∀ a, ∀ e ∈ events a, p e = false) : Avoids p (ask f events) := by
  intro s e he
  simp only [ask] at he
  exact h _ e he

theorem avoids_askE {W α : Type} {p : Event → Bool} {f : W → Except String α × W}
    {event : Except String α → Event} (h : ∀ r, p (event r) = false) :
    Avoids p (askE f event) := by
  intro s e he
  simp only [askE, List.mem_singleton] at he
  rw [he]
  exact h _

theorem avoids_ite {W α : Type} {p : Event → Bool} {cond : Prop} [Decidable cond]
    {x y : Act W α} (hx : Avoids p x) (hy : Avoids p y) :
    Avoids p (if cond then x else y) := by
  split
  · exact hx
  · exact hy

/-! ## The calls each method can make -/

theorem getNetworkKey_avoids {W : Type} (c : Collab W) (cfg : Config) {p : Event → Bool}
    (h : ∀ ok, p (.getNetwork ok) = false) : Avoids p (getNetworkKey c cfg) := by
  unfold getNetworkKey
  simp only [bind_eq]
  refine avoids_bind (avoids_askE (fun r => h _)) (fun chainId => ?_)
  split
  · exact avoids_pure _ _
  · exact avoids_throw _ _

theorem getContractAddresses_avoids {W : Type} (c : Collab W) (cfg : Config)
    {p : Event → Bool} (h : ∀ ok, p (.getNetwork ok) = false) :
    Avoids p (getContractAddresses c cfg) := by
  unfold getContractAddresses
  simp only [bind_eq]
  exact avoids_bind (getNetworkKey_avoids c cfg h) (fun _ => avoids_pure _ _)

theorem fetchUserTokens_avoids {W : Type} (c : Collab W) (cfg : Config) {p : Event → Bool}
    (h1 : ∀ ok, p (.getNetwork ok) = false) (h2 : ∀ a ok, p (.getUserTokens a ok) = false)
    (h3 : ∀ m, p (.consoleError "Error fetching user tokens:" m) = false) :
    Avoids p (fetchUserTokens c cfg) := by
  unfold fetchUserTokens
  simp only [bind_eq]
  refine avoids_tryCatch ?_ (fun m => avoids_emit (h3 _))
  refine avoids_bind (getContractAddresses_avoids c cfg h1) (fun a => ?_)
  exact avoids_bind (avoids_askE (fun _ => h2 _ _)) (fun _ => avoids_setState _ _)

theorem updateTokenBalance_avoids {W : Type} (c : Collab W) (cfg : Config) (op : Op)
    {p : Event → Bool}
    (h1 : ∀ ok, p (.getNetwork ok) = false) (h2 : ∀ a ok, p (.getUserTokens a ok) = false)
    (h3 : ∀ m, p (.consoleError "Error fetching user tokens:" m) = false)
    (h4 : ∀ t i a ok, p (.transfer t i a ok) = false) (h5 : ∀ ok, p (.wait ok) = false)
    (h6 : ∀ m, p (.consoleError "Error transferring tokens:" m) = false) :
    Avoids p (updateTokenBalance c cfg op) := by
  unfold updateTokenBalance
  simp only [bind_eq]
  refine avoids_tryCatch ?_
    (fun m => avoids_bind (avoids_emit (h6 _)) (fun _ => avoids_throw _ _))
  refine avoids_bind (getContractAddresses_avoids c cfg h1) (fun a => ?_)
  refine avoids_bind (avoids_askE (fun _ => h4 _ _ _ _)) (fun _ => ?_)
  exact avoids_bind (avoids_askE (fun _ => h5 _)) (fun _ => fetchUserTokens_avoids c cfg h1 h2 h3)

theorem promptUploadMethod_avoids {W : Type} (c : Collab W) {p : Event → Bool}
    (h : ∀ m, p (.promptUploadMethod m) = false) : Avoids p (promptUploadMethod c) := by
  unfold promptUploadMethod
  simp only [bind_eq]
  refine avoids_bind (avoids_setState _ _) (fun _ => ?_)
  refine avoids_bind (avoids_ask ?_) (fun _ => ?_)
  · intro a e he
    simp only [List.mem_singleton] at he
    rw [he]
    exact h _
  · exact avoids_bind (avoids_setState _ _) (fun _ => avoids_pure _ _)

theorem promptStorachaAccountSetup_avoids {W : Type} (c : Collab W) {p : Event → Bool}
    (h : ∀ m, p (.promptStorachaAccountSetup m) = false) :
    Avoids p (promptStorachaAccountSetup c) := by
  unfold promptStorachaAccountSetup
  simp only [bind_eq]
  refine avoids_bind (avoids_setState _ _) (fun _ => ?_)
  refine avoids_bind (avoids_ask ?_) (fun _ => ?_)
  · intro a e he
    simp only [List.mem_singleton] at he
    rw [he]
    exact h _
  · exact avoids_bind (avoids_setState _ _) (fun _ => avoids_pure _ _)

theorem uploadToIPFSStoracha_avoids {W : Type} (c : Collab W) (fileData : FileData)
    {p : Event → Bool}
    (h1 : ∀ ok, p (.create ok) = false) (h2 : ∀ a ok, p (.login a ok) = false)
    (h3 : ∀ a ok, p (.setCurrentSpace a ok) = false)
    (h4 : ∀ a r, p (.uploadDirectory a r) = false)
    (h5 : ∀ m, p (.consoleError "Storacha Upload Error:" m) = false) :
    Avoids p (uploadToIPFSStoracha c fileData) := by
  unfold uploadToIPFSStoracha
  simp only [bind_eq]
  refine avoids_tryCatch ?_
    (fun m => avoids_bind (avoids_emit (h5 _)) (fun _ => avoids_throw _ _))
  refine avoids_bind (avoids_readWorld _ _) (fun email => ?_)
  refine avoids_bind (avoids_readWorld _ _) (fun space => ?_)
  refine avoids_ite (avoids_throw _ _) ?_
  refine avoids_bind (avoids_askE (fun _ => h1 _)) (fun _ => ?_)
  refine avoids_bind (avoids_askE (fun _ => h2 _ _)) (fun _ => ?_)
  refine avoids_bind (avoids_askE (fun _ => h3 _ _)) (fun _ => ?_)
  exact avoids_askE (fun _ => h4 _ _)

theorem uploadToIpfsLighthouse_avoids {W : Type} (c : Collab W) (fileData : FileData)
    {p : Event → Bool} (h1 : ∀ a r, p (.lighthouseUpload a r) = false)
    (h2 : ∀ m, p (.consoleError "Lighthouse Upload Error:" m) = false) :
    Avoids p (uploadToIpfsLighthouse c fileData) := by
  unfold uploadToIpfsLighthouse
  simp only [bind_eq]
  exact avoids_tryCatch (avoids_askE (fun _ => h1 _ _))
    (fun m => avoids_bind (avoids_emit (h2 _)) (fun _ => avoids_throw _ _))

/-- The hypotheses name the calls `uploadWithMethod` can make. -/
theorem uploadWithMethod_avoids {W : Type} (c : Collab W) (fileData : FileData)
    (method : String) {p : Event → Bool}
    (h1 : ∀ ok, p (.create ok) = false) (h2 : ∀ a ok, p (.login a ok) = false)
    (h3 : ∀ a ok, p (.setCurrentSpace a ok) = false)
    (h4 : ∀ a r, p (.uploadDirectory a r) = false)
    (h5 : ∀ m, p (.consoleError "Storacha Upload Error:" m) = false)
    (h6 : ∀ a r, p (.lighthouseUpload a r) = false)
    (h8 : ∀ m, p (.promptStorachaAccountSetup m) = false)
    (h9 : ∀ m, p (.consoleError "Lighthouse Upload Error:" m) = false)
    (h10 : ∀ m, p (.consoleError "IPFS Upload Error:" m) = false) :
    Avoids p (uploadWithMethod c fileData method) := by
  unfold uploadWithMethod
  simp only [bind_eq]
  refine avoids_tryFinally ?_ (avoids_setState _ _)
  refine avoids_tryCatch ?_
    (fun m => avoids_bind (avoids_emit (h10 _)) (fun _ => avoids_throw _ _))
  refine avoids_bind (avoids_setState _ _) (fun _ => ?_)
  refine avoids_ite ?_ (avoids_ite (uploadToIpfsLighthouse_avoids c fileData h6 h9)
    (avoids_throw _ _))
  refine avoids_bind (avoids_readWorld _ _) (fun isSetup => ?_)
  refine avoids_ite ?_ (uploadToIPFSStoracha_avoids c fileData h1 h2 h3 h4 h5)
  exact avoids_bind (promptStorachaAccountSetup_avoids c h8) (fun _ => avoids_throw _ _)

/-- The hypotheses name the calls `chooseAndUploadToIPFS` can make. -/
theorem chooseAndUploadToIPFS_avoids {W : Type} (c : Collab W) (fileData : FileData)
    {p : Event → Bool}
    (h1 : ∀ ok, p (.create ok) = false) (h2 : ∀ a ok, p (.login a ok) = false)
    (h3 : ∀ a ok, p (.setCurrentSpace a ok) = false)
    (h4 : ∀ a r, p (.uploadDirectory a r) = false)
    (h5 : ∀ m, p (.consoleError "Storacha Upload Error:" m) = false)
    (h6 : ∀ a r, p (.lighthouseUpload a r) = false)
    (h7 : ∀ m, p (.promptUploadMethod m) = false)
    (h8 : ∀ m, p (.promptStorachaAccountSetup m) = false)
    (h9 : ∀ m, p (.consoleError "Lighthouse Upload Error:" m) = false)
    (h10 : ∀ m, p (.consoleError "IPFS Upload Error:" m) = false) :
    Avoids p (chooseAndUploadToIPFS c fileData) := by
  unfold chooseAndUploadToIPFS
  simp only [bind_eq]
  exact avoids_bind (promptUploadMethod_avoids c h7)
    (fun method => uploadWithMethod_avoids c fileData method h1 h2 h3 h4 h5 h6 h8 h9 h10)

/-! ## Running the primitive steps -/

@[simp] theorem Run.eta_nil_append {W α : Type} (r : Run W α) :
    (⟨r.result, r.sys, [] ++ r.events⟩ : Run W α) = r := by
  cases r
  rfl

@[simp] theorem bind_pure_run {W α β : Type} (a : α) (f : α → Act W β) (s : Sys W) :
    Act.bind (Act.pure a) f s = f a s := by
  simp [Act.bind, Act.pure]

@[simp] theorem bind_throw_run {W α β : Type} (m : String) (f : α → Act W β) (s : Sys W) :
    Act.bind (Act.throw m) f s = ⟨.error m, s, []⟩ := by
  simp [Act.bind, Act.throw]

@[simp] theorem bind_getState_run {W β : Type} (f : State → Act W β) (s : Sys W) :
    Act.bind getState f s = f s.state s := by
  simp [Act.bind, getState]

@[simp] theorem bind_getPropsFile_run {W β : Type} (f : String → Act W β) (s : Sys W) :
    Act.bind getPropsFile f s = f s.file s := by
  simp [Act.bind, getPropsFile]

@[simp] theorem bind_readWorld_run {W α β : Type} (g : W → α) (f : α → Act W β) (s : Sys W) :
    Act.bind (readWorld g) f s = f (g s.world) s := by
  simp [Act.bind, readWorld]

@[simp] theorem bind_getFile_run {W β : Type} (name : String) (f : Option Files → Act W β)
    (s : Sys W) : Act.bind (_getFile name) f s = f (Local_getFile s.store name) s := by
  simp [Act.bind, _getFile]

@[simp] theorem bind_setState_run {W β : Type} (update : State → State) (f : Unit → Act W β)
    (s : Sys W) :
    Act.bind (setState update) f s = f () { s with state := update s.state } := by
  simp [Act.bind, setState]

@[simp] theorem bind_emit_run {W β : Type} (e : Event) (f : Unit → Act W β) (s : Sys W) :
    Act.bind (emit e) f s = ⟨(f () s).result, (f () s).sys, e :: (f () s).events⟩ := by
  simp [Act.bind, emit]

@[simp] theorem bind_saveFile_run {W β : Type} (file : Files) (f : Unit → Act W β) (s : Sys W) :
    Act.bind (_saveFile file) f s =
      ⟨(f () { s with store := Local_saveFile s.store file }).result,
        (f () { s with store := Local_saveFile s.store file }).sys,
        Event._saveFile file :: (f () { s with store := Local_saveFile s.store file }).events⟩ := by
  simp [Act.bind, _saveFile]

@[simp] theorem bind_ask_run {W α β : Type} (g : W → α × W) (events : α → List Event)
    (f : α → Act W β) (s : Sys W) :
    Act.bind (ask g events) f s =
      ⟨(f (g s.world).1 { s with world := (g s.world).2 }).result,
        (f (g s.world).1 { s with world := (g s.world).2 }).sys,
        events (g s.world).1 ++ (f (g s.world).1 { s with world := (g s.world).2 }).events⟩ := by
  simp [Act.bind, ask]

theorem bind_ok_run {W α β : Type} {x : Act W α} {s : Sys W} {a : α}
    (h : (x s).result = .ok a) (f : α → Act W β) :
    Act.bind x f s =
      ⟨(f a (x s).sys).result, (f a (x s).sys).sys, (x s).events ++ (f a (x s).sys).events⟩ := by
  simp [Act.bind, h]

theorem bind_error_run {W α β : Type} {x : Act W α} {s : Sys W} {m : String}
    (h : (x s).result = .error m) (f : α → Act W β) :
    Act.bind x f s = ⟨.error m, (x s).sys, (x s).events⟩ := by
  simp [Act.bind, h]

theorem tryCatch_ok_run {W α : Type} {x : Act W α} {s : Sys W} {a : α}
    (h : (x s).result = .ok a) (handler : String → Act W α) :
    Act.tryCatch x handler s = ⟨.ok a, (x s).sys, (x s).events⟩ := by
  simp [Act.tryCatch, h]

theorem tryCatch_error_run {W α : Type} {x : Act W α} {s : Sys W} {m : String}
    (h : (x s).result = .error m) (handler : String → Act W α) :
    Act.tryCatch x handler s =
      ⟨(handler m (x s).sys).result, (handler m (x s).sys).sys,
        (x s).events ++ (handler m (x s).sys).events⟩ := by
  simp [Act.tryCatch, h]

/-! ## The ledger client -/

theorem getContractAddresses_run {W : Type} (c : Collab W) (cfg : Config) (s : Sys W) :
    (getContractAddresses c cfg s).sys = { s with world := (c.getNetwork s.world).2 } ∧
    ((∃ a, (getContractAddresses c cfg s).result = .ok a) →
      (getContractAddresses c cfg s).events = [Event.getNetwork true]) ∧
    ∃ ok, (getContractAddresses c cfg s).events = [Event.getNetwork ok] := by
  simp only [getContractAddresses, getNetworkKey, bind_eq, Act.bind, askE]
  rcases hgn : c.getNetwork s.world with ⟨_ | chainId, w1⟩
  · simp [returned]
  · simp only []
    cases hf : findNetwork ("0x" ++ toString16 chainId) cfg.SUPPORTED_NETWORKS <;>
      simp [Act.pure, Act.throw, returned]

/-- The method `fetchUserTokens` never throws and changes only `numOfTokens`. -/
theorem fetchUserTokens_run {W : Type} (c : Collab W) (cfg : Config) (s : Sys W) :
    (fetchUserTokens c cfg s).result = .ok () ∧
    (fetchUserTokens c cfg s).sys.store = s.store ∧
    (fetchUserTokens c cfg s).sys.file = s.file ∧
    (fetchUserTokens c cfg s).sys.state.uploadMethod = s.state.uploadMethod := by
  obtain ⟨hsys, -, -⟩ := getContractAddresses_run c cfg s
  simp only [fetchUserTokens, bind_eq, Act.tryCatch, Act.bind, askE, emit, setState]
  generalize getContractAddresses c cfg s = g at *
  obtain ⟨gr, gs, ge⟩ := g
  simp only [] at hsys
  subst hsys
  cases gr with
  | error m => simp
  | ok a =>
    simp only []
    rcases c.getUserTokens a.mediInvoice (c.getNetwork s.world).2 with ⟨_ | n, w2⟩ <;> simp

/-- A run of `updateTokenBalance` that returns: the transfer was submitted and returned, then
`tx.wait()` returned, then the balance was fetched. -/
theorem updateTokenBalance_ok {W : Type} (c : Collab W) (cfg : Config) (op : Op) (s : Sys W)
    (h : (updateTokenBalance c cfg op s).result = .ok ()) :
    ∃ t i s1, (updateTokenBalance c cfg op s).events =
      Event.getNetwork true :: Event.transfer t i (cfg.TOKEN_COST op) true :: Event.wait true ::
        (fetchUserTokens c cfg s1).events := by
  obtain ⟨hsys, hev, -⟩ := getContractAddresses_run c cfg s
  simp only [updateTokenBalance, bind_eq, Act.tryCatch, Act.bind, askE, emit, Act.throw] at h ⊢
  generalize getContractAddresses c cfg s = g at *
  obtain ⟨gr, gs, ge⟩ := g
  cases gr with
  | error m => simp at h
  | ok a =>
    simp at hev hsys
    subst hev
    simp only [] at h ⊢
    rcases ht : c.transfer a.mediToken a.mediInvoice (cfg.TOKEN_COST op) gs.world with ⟨_ | _, w2⟩
    · simp [ht] at h
    · simp only [ht] at h ⊢
      rcases hw : c.wait w2 with ⟨_ | _, w3⟩
      · simp [hw] at h
      · simp only [hw, (fetchUserTokens_run c cfg _).1] at h ⊢
        refine ⟨a.mediToken, a.mediInvoice,
          { world := w3, state := gs.state, store := gs.store, file := gs.file }, ?_⟩
        simp [returned]

/-- A run of `updateTokenBalance` that throws: the error was logged, the balance was not read
and the component state is as before. -/
theorem updateTokenBalance_error {W : Type} (c : Collab W) (cfg : Config) (op : Op) (s : Sys W)
    (m : String) (h : (updateTokenBalance c cfg op s).result = .error m) :
    (∃ pre, (updateTokenBalance c cfg op s).events =
      pre ++ [Event.consoleError "Error transferring tokens:" m] ∧
      ∀ e ∈ pre, e.isBalanceRead = false ∧ e ≠ Event.wait true) := by
  obtain ⟨hsys, -, ok, hev⟩ := getContractAddresses_run c cfg s
  simp only [updateTokenBalance, bind_eq, Act.tryCatch, Act.bind, askE, emit, Act.throw] at h ⊢
  generalize getContractAddresses c cfg s = g at *
  obtain ⟨gr, gs, ge⟩ := g
  simp only [] at hev
  subst hev
  cases gr with
  | error m1 =>
    simp only [] at h ⊢
    cases h
    exact ⟨[Event.getNetwork ok], by simp, by simp [Event.isBalanceRead]⟩
  | ok a =>
    simp only [] at h ⊢
    rcases ht : c.transfer a.mediToken a.mediInvoice (cfg.TOKEN_COST op) gs.world with ⟨_ | _, w2⟩
    · simp only [ht] at h ⊢
      cases h
      exact ⟨[Event.getNetwork ok,
        Event.transfer a.mediToken a.mediInvoice (cfg.TOKEN_COST op) false],
        by simp [returned], by simp [Event.isBalanceRead]⟩
    · simp only [ht] at h ⊢
      rcases hw : c.wait w2 with ⟨_ | _, w3⟩
      · simp only [hw] at h ⊢
        cases h
        exact ⟨[Event.getNetwork ok,
          Event.transfer a.mediToken a.mediInvoice (cfg.TOKEN_COST op) true, Event.wait false],
          by simp [returned], by simp [Event.isBalanceRead]⟩
      · simp [hw, (fetchUserTokens_run c cfg _).1] at h

theorem updateTokenBalance_keeps {W : Type} (c : Collab W) (cfg : Config) (op : Op) (s : Sys W) :
    (updateTokenBalance c cfg op s).sys.store = s.store ∧
    (updateTokenBalance c cfg op s).sys.file = s.file ∧
    (updateTokenBalance c cfg op s).sys.state.uploadMethod = s.state.uploadMethod := by
  obtain ⟨hsys, -, -⟩ := getContractAddresses_run c cfg s
  simp only [updateTokenBalance, bind_eq, Act.tryCatch, Act.bind, askE, emit, Act.throw]
  generalize getContractAddresses c cfg s = g at *
  obtain ⟨gr, gs, ge⟩ := g
  simp only [] at hsys
  subst hsys
  cases gr with
  | error m1 => simp
  | ok a =>
    simp only []
    rcases ht : c.transfer a.mediToken a.mediInvoice (cfg.TOKEN_COST op)
      (c.getNetwork s.world).2 with ⟨_ | _, w2⟩
    · simp
    · simp only []
      rcases hw : c.wait w2 with ⟨_ | _, w3⟩
      · simp
      · have hf := fetchUserTokens_run c cfg
          { world := w3, state := s.state, store := s.store, file := s.file }
        simp only [hf.1]
        exact ⟨hf.2.1, hf.2.2.1, hf.2.2.2⟩

/-! ## The upload backends -/

theorem uploadToIPFSStoracha_run {W : Type} (c : Collab W) (fileData : FileData) (s : Sys W) :
    (uploadToIPFSStoracha c fileData s).sys.state = s.state ∧
    (uploadToIPFSStoracha c fileData s).sys.store = s.store ∧
    (uploadToIPFSStoracha c fileData s).sys.file = s.file ∧
    ∀ cid, (uploadToIPFSStoracha c fileData s).result = .ok cid →
      Event.uploadDirectory fileData (some cid) ∈ (uploadToIPFSStoracha c fileData s).events := by
  simp only [uploadToIPFSStoracha, bind_eq, Act.tryCatch, bind_readWorld_run, ite_apply,
    bind_emit_run]
  by_cases hcond : (!truthy (c.getItem "ipfsUserEmail" s.world) ||
      !truthy (c.getItem "ipfsUserSpace" s.world)) = true
  · rw [if_pos hcond]
    simp [Act.throw]
  · rw [if_neg hcond]
    simp only [Act.bind, askE, Act.throw]
    rcases c.create s.world with ⟨_ | _, w1⟩
    · simp
    · simp only []
      rcases c.login _ w1 with ⟨_ | _, w2⟩
      · simp
      · simp only []
        rcases c.setCurrentSpace _ w2 with ⟨_ | _, w3⟩
        · simp
        · simp only []
          rcases c.uploadDirectory fileData w3 with ⟨_ | cid, w4⟩
          · simp
          · simp [address]

theorem uploadToIpfsLighthouse_run {W : Type} (c : Collab W) (fileData : FileData) (s : Sys W) :
    (uploadToIpfsLighthouse c fileData s).sys.state = s.state ∧
    (uploadToIpfsLighthouse c fileData s).sys.store = s.store ∧
    (uploadToIpfsLighthouse c fileData s).sys.file = s.file ∧
    ∀ cid, (uploadToIpfsLighthouse c fileData s).result = .ok cid →
      Event.lighthouseUpload fileData (some cid) ∈
        (uploadToIpfsLighthouse c fileData s).events := by
  simp only [uploadToIpfsLighthouse, bind_eq, Act.tryCatch, bind_emit_run, askE, Act.throw]
  rcases c.lighthouseUpload fileData API_KEY s.world with ⟨_ | cid, w1⟩
  · simp
  · simp [address]

theorem ite_run {W α : Type} {cond : Prop} [Decidable cond] (x y : Act W α) (s : Sys W) :
    (if cond then x else y) s = if cond then x s else y s := by
  split <;> rfl

theorem promptStorachaAccountSetup_run {W : Type} (c : Collab W) (s : Sys W) :
    promptStorachaAccountSetup c s =
      ⟨.ok (c.resolveStorachaSetup s.world).1,
        { s with
          world := (c.resolveStorachaSetup s.world).2
          state := { s.state with showStorachaSetupModal := false } },
        [Event.promptStorachaAccountSetup (c.resolveStorachaSetup s.world).1]⟩ := by
  simp [promptStorachaAccountSetup, Act.pure]

theorem promptUploadMethod_run {W : Type} (c : Collab W) (s : Sys W) :
    promptUploadMethod c s =
      ⟨.ok (c.resolveUploadMethod s.world).1,
        { s with
          world := (c.resolveUploadMethod s.world).2
          state :=
            { s.state with
              showUploadMethodModal := false
              selectedUploadMethod := some (c.resolveUploadMethod s.world).1 } },
        [Event.promptUploadMethod (c.resolveUploadMethod s.world).1]⟩ := by
  simp [promptUploadMethod, Act.pure]

/-- Storacha chosen without a configured account: the setup prompt is shown and the block
throws; no backend is called. -/
theorem uploadWithMethod_needsSetup {W : Type} (c : Collab W) (fileData : FileData) (s : Sys W)
    (h : isStorachaAccountSetup c s.world = false) :
    (uploadWithMethod c fileData "storacha" s).result = .error "Storacha account not set up" ∧
    (uploadWithMethod c fileData "storacha" s).events =
      [Event.promptStorachaAccountSetup (c.resolveStorachaSetup s.world).1,
        Event.consoleError "IPFS Upload Error:" "Storacha account not set up"] ∧
    (uploadWithMethod c fileData "storacha" s).sys.world = (c.resolveStorachaSetup s.world).2 := by
  simp only [uploadWithMethod, Act.tryFinally, Act.tryCatch, bind_eq, bind_setState_run,
    bind_emit_run, Act.throw, setState]
  simp only [ite_run, if_true, bind_readWorld_run, h, Bool.not_false]
  simp [Act.bind, Act.throw, promptStorachaAccountSetup_run]

theorem uploadWithMethod_keeps {W : Type} (c : Collab W) (fileData : FileData) (m : String)
    (s : Sys W) :
    (uploadWithMethod c fileData m s).sys.store = s.store ∧
    (uploadWithMethod c fileData m s).sys.file = s.file := by
  simp only [uploadWithMethod, Act.tryFinally, Act.tryCatch, bind_eq, bind_setState_run,
    bind_emit_run, Act.throw, setState]
  by_cases hm : m = "storacha"
  · rw [if_pos hm]
    simp only [bind_readWorld_run]
    by_cases hs : (!isStorachaAccountSetup c s.world) = true
    · rw [if_pos hs]
      simp [Act.bind, Act.throw, promptStorachaAccountSetup_run]
    · rw [if_neg hs]
      obtain ⟨-, h1, h2, -⟩ := uploadToIPFSStoracha_run c fileData
        { s with state := { s.state with isUploading := true, uploadMethod := m } }
      generalize uploadToIPFSStoracha c fileData _ = r at *
      obtain ⟨rr, rs, re⟩ := r
      cases rr <;> simp_all
  · rw [if_neg hm]
    by_cases hl : m = "lighthouse"
    · rw [if_pos hl]
      obtain ⟨-, h1, h2, -⟩ := uploadToIpfsLighthouse_run c fileData
        { s with state := { s.state with isUploading := true, uploadMethod := m } }
      generalize uploadToIpfsLighthouse c fileData _ = r at *
      obtain ⟨rr, rs, re⟩ := r
      cases rr <;> simp_all
    · rw [if_neg hl]
      simp [Act.throw]

/-- A run of the upload block that returns: the method was Storacha or Lighthouse, the
content address is the one its backend returned, `uploadMethod` holds the method and no
upload error was logged. -/
theorem uploadWithMethod_ok {W : Type} (c : Collab W) (fileData : FileData) (m : String)
    (s : Sys W) (cid : String) (h : (uploadWithMethod c fileData m s).result = .ok cid) :
    (uploadWithMethod c fileData m s).sys.state.uploadMethod = m ∧
    ((m = "storacha" ∧
        Event.uploadDirectory fileData (some cid) ∈ (uploadWithMethod c fileData m s).events) ∨
      (m = "lighthouse" ∧
        Event.lighthouseUpload fileData (some cid) ∈ (uploadWithMethod c fileData m s).events)) ∧
    ∀ e ∈ (uploadWithMethod c fileData m s).events, e.hasLabel "IPFS Upload Error:" = false := by
  simp only [uploadWithMethod, Act.tryFinally, Act.tryCatch, bind_eq, bind_setState_run,
    bind_emit_run, Act.throw, setState] at h ⊢
  by_cases hm : m = "storacha"
  · rw [if_pos hm] at h ⊢
    simp only [bind_readWorld_run] at h ⊢
    by_cases hs : (!isStorachaAccountSetup c s.world) = true
    · rw [if_pos hs] at h
      simp [Act.bind, Act.throw, promptStorachaAccountSetup_run] at h
    · rw [if_neg hs] at h ⊢
      obtain ⟨h0, -, -, h3⟩ := uploadToIPFSStoracha_run c fileData
        { s with state := { s.state with isUploading := true, uploadMethod := m } }
      have h4 := uploadToIPFSStoracha_avoids c fileData (p := Event.hasLabel "IPFS Upload Error:")
        (fun _ => rfl) (fun _ _ => rfl) (fun _ _ => rfl) (fun _ _ => rfl) (fun _ => rfl)
        { s with state := { s.state with isUploading := true, uploadMethod := m } }
      generalize uploadToIPFSStoracha c fileData _ = r at *
      obtain ⟨rr, rs, re⟩ := r
      cases rr with
      | error e => simp at h
      | ok a =>
        simp only [Except.ok.injEq] at h
        subst h
        simp only [] at h0 h3 h4
        simp [h0, hm, h3 a rfl]
        exact h4
  · rw [if_neg hm] at h ⊢
    by_cases hl : m = "lighthouse"
    · rw [if_pos hl] at h ⊢
      obtain ⟨h0, -, -, h3⟩ := uploadToIpfsLighthouse_run c fileData
        { s with state := { s.state with isUploading := true, uploadMethod := m } }
      have h4 := uploadToIpfsLighthouse_avoids c fileData
        (p := Event.hasLabel "IPFS Upload Error:") (fun _ _ => rfl) (fun _ => rfl)
        { s with state := { s.state with isUploading := true, uploadMethod := m } }
      generalize uploadToIpfsLighthouse c fileData _ = r at *
      obtain ⟨rr, rs, re⟩ := r
      cases rr with
      | error e => simp at h
      | ok a =>
        simp only [Except.ok.injEq] at h
        subst h
        simp only [] at h0 h3 h4
        simp [h0, hl, h3 a rfl]
        exact h4
    · rw [if_neg hl] at h
      simp [Act.throw] at h

/-- A run of the upload block that throws: the error was logged last, under the label
"IPFS Upload Error:". -/
theorem uploadWithMethod_error {W : Type} (c : Collab W) (fileData : FileData) (m : String)
    (s : Sys W) (err : String) (h : (uploadWithMethod c fileData m s).result = .error err) :
    ∃ pre, (uploadWithMethod c fileData m s).events =
      pre ++ [Event.consoleError "IPFS Upload Error:" err] := by
  simp only [uploadWithMethod, Act.tryFinally, Act.tryCatch, bind_eq, bind_setState_run,
    bind_emit_run, Act.throw, setState] at h ⊢
  generalize (if m = "storacha" then _ else _ : Act W String) _ = r at *
  obtain ⟨rr, rs, re⟩ := r
  cases rr with
  | ok a => simp at h
  | error e =>
    simp only [Except.error.injEq] at h
    subst h
    exact ⟨re, by simp⟩

theorem chooseAndUploadToIPFS_run {W : Type} (c : Collab W) (fileData : FileData) (s : Sys W) :
    ∃ s1 : Sys W, s1.world = (c.resolveUploadMethod s.world).2 ∧ s1.store = s.store ∧
      s1.file = s.file ∧
      chooseAndUploadToIPFS c fileData s =
        ⟨(uploadWithMethod c fileData (c.resolveUploadMethod s.world).1 s1).result,
          (uploadWithMethod c fileData (c.resolveUploadMethod s.world).1 s1).sys,
          Event.promptUploadMethod (c.resolveUploadMethod s.world).1 ::
            (uploadWithMethod c fileData (c.resolveUploadMethod s.world).1 s1).events⟩ := by
  refine ⟨(promptUploadMethod c s).sys, ?_, ?_, ?_, ?_⟩
  · simp [promptUploadMethod_run]
  · simp [promptUploadMethod_run]
  · simp [promptUploadMethod_run]
  · simp only [chooseAndUploadToIPFS, bind_eq]
    rw [bind_ok_run (a := (c.resolveUploadMethod s.world).1) (by simp [promptUploadMethod_run])]
    simp [promptUploadMethod_run]

/-- The runs of `doSaveAs` that reach the upload: the filename is not empty, the cached
balance covers the cost and the name is valid. -/
theorem doSaveAs_valid {W : Type} (c : Collab W) (cfg : Config) (s : Sys W) (filename : String)
    (hp : (c.prompt "Enter filename:" s.world).1 = some filename) (hne : filename ≠ "")
    (hbal : ¬ s.state.numOfTokens < (cfg.TOKEN_COST .SAVE_AS).value)
    (hv : _validateName filename = true) :
    ∃ (fileData : FileData) (s1 : Sys W), s1.store = s.store ∧
      (∀ m, (chooseAndUploadToIPFS c fileData s1).result = .error m →
        (doSaveAs c cfg s).events =
          Event.prompt "Enter filename:" (some filename) ::
            ((chooseAndUploadToIPFS c fileData s1).events ++
              [Event.consoleError "Save As error:" m, Event.alert ("Error saving file: " ++ m)]) ∧
        (doSaveAs c cfg s).sys.store = (chooseAndUploadToIPFS c fileData s1).sys.store) ∧
      (∀ cid m, (chooseAndUploadToIPFS c fileData s1).result = .ok cid →
        (updateTokenBalance c cfg .SAVE_AS (chooseAndUploadToIPFS c fileData s1).sys).result =
          .error m →
        (doSaveAs c cfg s).events =
          Event.prompt "Enter filename:" (some filename) ::
            ((chooseAndUploadToIPFS c fileData s1).events ++
              ((updateTokenBalance c cfg .SAVE_AS
                  (chooseAndUploadToIPFS c fileData s1).sys).events ++
                [Event.consoleError "Save As error:" m,
                  Event.alert ("Error saving file: " ++ m)])) ∧
        (doSaveAs c cfg s).sys.store =
          (updateTokenBalance c cfg .SAVE_AS (chooseAndUploadToIPFS c fileData s1).sys).sys.store) ∧
      (∀ cid, (chooseAndUploadToIPFS c fileData s1).result = .ok cid →
        (updateTokenBalance c cfg .SAVE_AS (chooseAndUploadToIPFS c fileData s1).sys).result =
          .ok () →
        ∃ record : Files, record.name = filename ∧
        (doSaveAs c cfg s).events =
          Event.prompt "Enter filename:" (some filename) ::
            ((chooseAndUploadToIPFS c fileData s1).events ++
              ((updateTokenBalance c cfg .SAVE_AS
                  (chooseAndUploadToIPFS c fileData s1).sys).events ++
                [Event._saveFile record, Event.updateSelectedFile filename,
                  Event.showSaveSuccessModal filename cid
                    (gatewayUrl
                      (updateTokenBalance c cfg .SAVE_AS
                        (chooseAndUploadToIPFS c fileData s1).sys).sys.state.uploadMethod
                      cid)]))) := by
  simp only [doSaveAs, bind_eq, bind_ask_run, hp, bind_getState_run, ite_run, if_neg hne,
    if_neg hbal, hv, if_true]
  refine ⟨
    { name := filename
      content := c.encodeURIComponent
        (c.getSpreadsheetContent (c.prompt "Enter filename:" s.world).2).1
      created := (c.dateToString
        (c.getSpreadsheetContent (c.prompt "Enter filename:" s.world).2).2).1
      modified := (c.dateToString (c.dateToString
        (c.getSpreadsheetContent (c.prompt "Enter filename:" s.world).2).2).2).1 },
    { world := (c.dateToString (c.dateToString
        (c.getSpreadsheetContent (c.prompt "Enter filename:" s.world).2).2).2).2
      state := s.state, store := s.store, file := s.file }, rfl, ?_, ?_, ?_⟩
  · intro m hm
    simp only [Act.tryCatch, bind_ask_run]
    rw [bind_error_run hm]
    simp [emit]
  · intro cid m hc hu
    simp only [Act.tryCatch, bind_ask_run]
    rw [bind_ok_run hc, bind_error_run hu]
    simp [emit]
  · intro cid hc hu
    refine ⟨
      { created := (c.dateToString
          (c.getSpreadsheetContent (c.prompt "Enter filename:" s.world).2).2).1
        modified := (c.dateToString (c.dateToString
          (c.getSpreadsheetContent (c.prompt "Enter filename:" s.world).2).2).2).1
        content := c.encodeURIComponent
          (c.getSpreadsheetContent (c.prompt "Enter filename:" s.world).2).1
        name := filename }, rfl, ?_⟩
    simp only [Act.tryCatch, bind_ask_run]
    rw [bind_ok_run hc, bind_ok_run hu]
    simp [showSaveSuccessModal, emit, setState]

/-- The runs of `doSaveAs` that stop before the upload: at most one alert is shown. -/
theorem doSaveAs_early {W : Type} (c : Collab W) (cfg : Config) (s : Sys W)
    (h : ∀ filename, (c.prompt "Enter filename:" s.world).1 = some filename → filename ≠ "" →
      ¬ s.state.numOfTokens < (cfg.TOKEN_COST .SAVE_AS).value → _validateName filename = false) :
    (∃ l, (doSaveAs c cfg s).events =
        Event.prompt "Enter filename:" (c.prompt "Enter filename:" s.world).1 :: l ∧
      ∀ e ∈ l, ∃ message, e = Event.alert message) ∧
    (doSaveAs c cfg s).sys.store = s.store := by
  simp only [doSaveAs, bind_eq, bind_ask_run]
  cases hp : (c.prompt "Enter filename:" s.world).1 with
  | none => simp [Act.pure]
  | some filename =>
    simp only [ite_run]
    by_cases hne : filename = ""
    · simp [hne, Act.pure]
    · simp only [if_neg hne, bind_getState_run, ite_run]
      by_cases hbal : s.state.numOfTokens < (cfg.TOKEN_COST .SAVE_AS).value
      · simp [hbal, emit]
      · simp [hbal, h filename hp hne hbal, emit]

/-- The runs of `doPrint` with a cached balance that covers the cost. -/
theorem doPrint_run {W : Type} (c : Collab W) (cfg : Config) (s : Sys W)
    (hbal : ¬ s.state.numOfTokens < (cfg.TOKEN_COST .PRINT).value) :
    (∀ m, (updateTokenBalance c cfg .PRINT s).result = .error m →
      (doPrint c cfg s).events =
        (updateTokenBalance c cfg .PRINT s).events ++
          [Event.alert "Failed to process token payment"]) ∧
    ((updateTokenBalance c cfg .PRINT s).result = .ok () →
      ∃ tail, (doPrint c cfg s).events = (updateTokenBalance c cfg .PRINT s).events ++ tail ∧
        ∀ e ∈ tail, e.isBalanceRead = false ∧ e.isDebit = false ∧
          e.hasLabel "Error transferring tokens:" = false) ∧
    (doPrint c cfg s).sys.store = s.store := by
  simp only [doPrint, bind_eq, bind_getState_run, ite_run, if_neg hbal, Act.tryCatch]
  obtain ⟨hk, -, -⟩ := updateTokenBalance_keeps c cfg .PRINT s
  cases hu : (updateTokenBalance c cfg .PRINT s).result with
  | error m =>
    rw [bind_error_run hu]
    simp [emit, hk]
  | ok u =>
    rw [bind_ok_run hu]
    simp only [bind_ask_run, ite_run]
    cases hw : (c.windowOpen (c.getCurrentHTMLContent (updateTokenBalance c cfg .PRINT s).sys.world).2).1
    · simp [Act.throw, emit, hk, Event.isBalanceRead, Event.isDebit, Event.hasLabel]
    · simp [emit, hk, Event.isBalanceRead, Event.isDebit, Event.hasLabel]

/-- The runs of `doSave` on a file other than "default" with a cached balance that covers
the cost. -/
theorem doSave_run {W : Type} (c : Collab W) (cfg : Config) (s : Sys W)
    (hf : s.file ≠ "default") (hbal : ¬ s.state.numOfTokens < (cfg.TOKEN_COST .SAVE).value) :
    (∀ m, (updateTokenBalance c cfg .SAVE s).result = .error m →
      (doSave c cfg s).events =
        (updateTokenBalance c cfg .SAVE s).events ++
          [Event.alert "Failed to process token payment"] ∧
      (doSave c cfg s).sys.store = s.store) ∧
    ((updateTokenBalance c cfg .SAVE s).result = .ok () →
      Local_getFile s.store s.file = none →
      (doSave c cfg s).events =
        (updateTokenBalance c cfg .SAVE s).events ++
          [Event.alert "Failed to process token payment"] ∧
      (doSave c cfg s).sys.store = s.store) ∧
    ((updateTokenBalance c cfg .SAVE s).result = .ok () →
      ∀ data, Local_getFile s.store s.file = some data →
      (doSave c cfg s).events =
        (updateTokenBalance c cfg .SAVE s).events ++
          [Event._saveFile
              { created := data.created
                modified := (c.dateToString (c.getSpreadsheetContent
                  (updateTokenBalance c cfg .SAVE s).sys.world).2).1
                content := c.encodeURIComponent (c.getSpreadsheetContent
                  (updateTokenBalance c cfg .SAVE s).sys.world).1
                name := s.file },
            Event.updateSelectedFile s.file,
            Event.alert ("File " ++ s.file ++ " updated successfully!")] ∧
      (doSave c cfg s).sys.store =
        Local_saveFile s.store
          { created := data.created
            modified := (c.dateToString (c.getSpreadsheetContent
              (updateTokenBalance c cfg .SAVE s).sys.world).2).1
            content := c.encodeURIComponent (c.getSpreadsheetContent
              (updateTokenBalance c cfg .SAVE s).sys.world).1
            name := s.file }) := by
  simp only [doSave, bind_eq, bind_getPropsFile_run, ite_run, if_neg hf, bind_getState_run,
    if_neg hbal, Act.tryCatch]
  obtain ⟨hk, -, -⟩ := updateTokenBalance_keeps c cfg .SAVE s
  cases hu : (updateTokenBalance c cfg .SAVE s).result with
  | error m =>
    rw [bind_error_run hu]
    simp [emit, hk]
  | ok u =>
    rw [bind_ok_run hu]
    simp only [bind_ask_run, bind_getFile_run, hk]
    cases hd : Local_getFile s.store s.file with
    | none => simp [Act.throw, emit, hk]
    | some data => simp [emit, hk]

theorem chooseAndUploadToIPFS_keeps {W : Type} (c : Collab W) (fileData : FileData)
    (s : Sys W) :
    (chooseAndUploadToIPFS c fileData s).sys.store = s.store ∧
    (chooseAndUploadToIPFS c fileData s).sys.file = s.file := by
  obtain ⟨s1, -, h1, h2, h⟩ := chooseAndUploadToIPFS_run c fileData s
  obtain ⟨h3, h4⟩ := uploadWithMethod_keeps c fileData (c.resolveUploadMethod s.world).1 s1
  rw [h]
  exact ⟨h3.trans h1, h4.trans h2⟩

/-- A run of `chooseAndUploadToIPFS` that returns: the chosen method was Storacha or
Lighthouse, the content address is the one its backend returned, `uploadMethod` holds the
chosen method and no upload error was logged. -/
theorem chooseAndUploadToIPFS_ok {W : Type} (c : Collab W) (fileData : FileData) (s : Sys W)
    (cid : String) (h : (chooseAndUploadToIPFS c fileData s).result = .ok cid) :
    (chooseAndUploadToIPFS c fileData s).sys.state.uploadMethod =
      (c.resolveUploadMethod s.world).1 ∧
    (((c.resolveUploadMethod s.world).1 = "storacha" ∧
        Event.uploadDirectory fileData (some cid) ∈ (chooseAndUploadToIPFS c fileData s).events) ∨
      ((c.resolveUploadMethod s.world).1 = "lighthouse" ∧
        Event.lighthouseUpload fileData (some cid) ∈
          (chooseAndUploadToIPFS c fileData s).events)) ∧
    (∀ e ∈ (chooseAndUploadToIPFS c fileData s).events,
      e.hasLabel "IPFS Upload Error:" = false) ∧
    ∀ m, Event.promptUploadMethod m ∈ (chooseAndUploadToIPFS c fileData s).events →
      m = (c.resolveUploadMethod s.world).1 := by
  obtain ⟨s1, -, -, -, hrun⟩ := chooseAndUploadToIPFS_run c fileData s
  rw [hrun] at h ⊢
  simp only [] at h
  obtain ⟨h1, h2, h3⟩ := uploadWithMethod_ok c fileData _ s1 cid h
  have h4 := uploadWithMethod_avoids c fileData (c.resolveUploadMethod s.world).1
    (p := Event.isMethodPrompt) (fun _ => rfl) (fun _ _ => rfl) (fun _ _ => rfl)
    (fun _ _ => rfl) (fun _ => rfl) (fun _ _ => rfl) (fun _ => rfl) (fun _ => rfl)
    (fun _ => rfl) s1
  refine ⟨h1, ?_, ?_, ?_⟩
  · rcases h2 with ⟨hm, hin⟩ | ⟨hm, hin⟩
    · exact Or.inl ⟨hm, List.mem_cons_of_mem _ hin⟩
    · exact Or.inr ⟨hm, List.mem_cons_of_mem _ hin⟩
  · intro e he
    simp only [List.mem_cons] at he
    rcases he with he | he
    · rw [he]
      rfl
    · exact h3 e he
  · intro m hm
    simp only [List.mem_cons, Event.promptUploadMethod.injEq] at hm
    rcases hm with hm | hm
    · exact hm
    · have := h4 _ hm
      simp [Event.isMethodPrompt] at this

/-- A run of `chooseAndUploadToIPFS` that throws: the error was logged last, under the label
"IPFS Upload Error:". -/
theorem chooseAndUploadToIPFS_error {W : Type} (c : Collab W) (fileData : FileData)
    (s : Sys W) (err : String) (h : (chooseAndUploadToIPFS c fileData s).result = .error err) :
    ∃ pre, (chooseAndUploadToIPFS c fileData s).events =
      pre ++ [Event.consoleError "IPFS Upload Error:" err] := by
  obtain ⟨s1, -, -, -, hrun⟩ := chooseAndUploadToIPFS_run c fileData s
  rw [hrun] at h ⊢
  obtain ⟨pre, hpre⟩ := uploadWithMethod_error c fileData _ s1 err h
  exact ⟨Event.promptUploadMethod (c.resolveUploadMethod s.world).1 :: pre, by simp [hpre]⟩

/-! ## Order of calls -/

/-- When no call of `A` satisfies `p` and `x` is a subsequence of `A`, every call of `A ++ B`
that satisfies `p` comes after `x`. -/
theorem after_initial_segment {p : Event → Bool} {x A B : List Event}
    (hA : ∀ e ∈ A, p e = false) (hx : x.Sublist A) (pre : List Event) (e : Event)
    (post : List Event) (h : A ++ B = pre ++ e :: post) (he : p e = true) : x.Sublist pre := by
  rcases List.append_eq_append_iff.mp h with ⟨a', ha, -⟩ | ⟨c', ha, hc⟩
  · rw [ha]
    exact hx.trans (List.sublist_append_left A a')
  · cases c' with
    | nil =>
      simp only [List.append_nil] at ha
      rw [← ha]
      exact hx
    | cons d c'' =>
      simp only [List.cons_append, List.cons.injEq] at hc
      have hmem : e ∈ A := by
        rw [ha, hc.1]
        simp
      rw [hA e hmem] at he
      cases he

/-- When no call of `l` satisfies `p`, any statement about a call of `l` that satisfies `p`
holds. -/
theorem after_none {p : Event → Bool} {l : List Event} (hl : ∀ e ∈ l, p e = false)
    (x : List Event) (pre : List Event) (e : Event) (post : List Event)
    (h : l = pre ++ e :: post) (he : p e = true) : x.Sublist pre := by
  have hmem : e ∈ l := by
    rw [h]
    simp
  rw [hl e hmem] at he
  cases he

/-- A run of `updateTokenBalance` that throws makes no protected effect and no balance
read. -/
theorem updateTokenBalance_error_quiet {W : Type} (c : Collab W) (cfg : Config) (op : Op)
    (s : Sys W) (m : String) (h : (updateTokenBalance c cfg op s).result = .error m) :
    ∀ e ∈ (updateTokenBalance c cfg op s).events,
      e.isEffect = false ∧ e.isBalanceRead = false := by
  intro e he
  refine ⟨updateTokenBalance_avoids c cfg op (p := Event.isEffect) (fun _ => rfl)
    (fun _ _ => rfl) (fun _ => rfl) (fun _ _ _ _ => rfl) (fun _ => rfl) (fun _ => rfl) s e he, ?_⟩
  obtain ⟨pre, hpre, hno⟩ := updateTokenBalance_error c cfg op s m h
  rw [hpre] at he
  simp only [List.mem_append, List.mem_singleton] at he
  rcases he with he | he
  · exact (hno e he).1
  · rw [he]
    rfl

/-- A run of `updateTokenBalance` that returns, split at the confirmed debit. -/
theorem updateTokenBalance_ok_split {W : Type} (c : Collab W) (cfg : Config) (op : Op)
    (s : Sys W) (h : (updateTokenBalance c cfg op s).result = .ok ()) :
    ∃ t i F, (updateTokenBalance c cfg op s).events =
        Event.getNetwork true :: Event.transfer t i (cfg.TOKEN_COST op) true ::
          Event.wait true :: F ∧
      ∀ e ∈ F, e.isEffect = false ∧ e.hasLabel "Error transferring tokens:" = false ∧
        e.hasLabel "IPFS Upload Error:" = false ∧ e.isDebit = false := by
  obtain ⟨t, i, s1, hev⟩ := updateTokenBalance_ok c cfg op s h
  refine ⟨t, i, _, hev, fun e he => ⟨?_, ?_, ?_, ?_⟩⟩
  · exact fetchUserTokens_avoids c cfg (p := Event.isEffect) (fun _ => rfl) (fun _ _ => rfl)
      (fun _ => rfl) s1 e he
  · exact fetchUserTokens_avoids c cfg (p := Event.hasLabel "Error transferring tokens:")
      (fun _ => rfl) (fun _ _ => rfl) (fun _ => rfl) s1 e he
  · exact fetchUserTokens_avoids c cfg (p := Event.hasLabel "IPFS Upload Error:")
      (fun _ => rfl) (fun _ _ => rfl) (fun _ => rfl) s1 e he
  · exact fetchUserTokens_avoids c cfg (p := Event.isDebit)
      (fun _ => rfl) (fun _ _ => rfl) (fun _ => rfl) s1 e he

/-- The calls `chooseAndUploadToIPFS` never makes. -/
theorem chooseAndUploadToIPFS_quiet {W : Type} (c : Collab W) (fileData : FileData)
    (s : Sys W) :
    ∀ e ∈ (chooseAndUploadToIPFS c fileData s).events,
      e.isEffect = false ∧ e.isBalanceRead = false ∧ e.isDebit = false ∧
        e.hasLabel "Error transferring tokens:" = false := by
  intro e he
  refine ⟨?_, ?_, ?_, ?_⟩
  · exact chooseAndUploadToIPFS_avoids c fileData (p := Event.isEffect) (fun _ => rfl)
      (fun _ _ => rfl) (fun _ _ => rfl) (fun _ _ => rfl) (fun _ => rfl) (fun _ _ => rfl)
      (fun _ => rfl) (fun _ => rfl) (fun _ => rfl) (fun _ => rfl) s e he
  · exact chooseAndUploadToIPFS_avoids c fileData (p := Event.isBalanceRead) (fun _ => rfl)
      (fun _ _ => rfl) (fun _ _ => rfl) (fun _ _ => rfl) (fun _ => rfl) (fun _ _ => rfl)
      (fun _ => rfl) (fun _ => rfl) (fun _ => rfl) (fun _ => rfl) s e he
  · exact chooseAndUploadToIPFS_avoids c fileData (p := Event.isDebit) (fun _ => rfl)
      (fun _ _ => rfl) (fun _ _ => rfl) (fun _ _ => rfl) (fun _ => rfl) (fun _ _ => rfl)
      (fun _ => rfl) (fun _ => rfl) (fun _ => rfl) (fun _ => rfl) s e he
  · exact chooseAndUploadToIPFS_avoids c fileData
      (p := Event.hasLabel "Error transferring tokens:") (fun _ => rfl)
      (fun _ _ => rfl) (fun _ _ => rfl) (fun _ _ => rfl) (fun _ => rfl) (fun _ _ => rfl)
      (fun _ => rfl) (fun _ => rfl) (fun _ => rfl) (fun _ => rfl) s e he

/-- The two kinds of run of a handler. Either the run makes no protected effect and no
balance read, or it splits at a confirmed debit: the calls `A` before the transfer, the
transfer and `tx.wait()` both returned, the balance refresh `F`, and the rest. -/
theorem onClick_cases {W : Type} (c : Collab W) (cfg : Config) (op : Op) (s : Sys W) :
    (∀ e ∈ (onClick c cfg op s).events, e.isEffect = false ∧ e.isBalanceRead = false) ∨
    ∃ A t i F tail,
      (onClick c cfg op s).events =
        A ++ Event.transfer t i (cfg.TOKEN_COST op) true :: Event.wait true :: (F ++ tail) ∧
      (∀ e ∈ A, e.isEffect = false ∧ e.isBalanceRead = false ∧
        e.hasLabel "Error transferring tokens:" = false) ∧
      (∀ e ∈ F, e.isEffect = false ∧ e.hasLabel "Error transferring tokens:" = false) ∧
      ∀ e ∈ tail, e.isBalanceRead = false ∧
        e.hasLabel "Error transferring tokens:" = false := by
  cases op with
  | PRINT =>
    simp only [onClick]
    by_cases hbal : s.state.numOfTokens < (cfg.TOKEN_COST .PRINT).value
    · left
      simp [doPrint, hbal, emit, Event.isEffect, Event.isBalanceRead]
    · obtain ⟨herr, hok, -⟩ := doPrint_run c cfg s hbal
      cases hu : (updateTokenBalance c cfg .PRINT s).result with
      | error m =>
        left
        rw [herr m hu]
        intro e he
        simp only [List.mem_append, List.mem_singleton] at he
        rcases he with he | he
        · exact updateTokenBalance_error_quiet c cfg _ s m hu e he
        · rw [he]
          exact ⟨rfl, rfl⟩
      | ok u =>
        right
        obtain ⟨tail, hev, htail⟩ := hok hu
        obtain ⟨t, i, F, hF, hFq⟩ := updateTokenBalance_ok_split c cfg .PRINT s hu
        refine ⟨[Event.getNetwork true], t, i, F, tail, ?_, ?_, ?_, ?_⟩
        · rw [hev, hF]
          simp
        · simp [Event.isEffect, Event.isBalanceRead, Event.hasLabel]
        · exact fun e he => ⟨(hFq e he).1, (hFq e he).2.1⟩
        · exact fun e he => ⟨(htail e he).1, (htail e he).2.2⟩
  | SAVE =>
    simp only [onClick]
    by_cases hf : s.file = "default"
    · left
      simp [doSave, hf, emit, Event.isEffect, Event.isBalanceRead]
    by_cases hbal : s.state.numOfTokens < (cfg.TOKEN_COST .SAVE).value
    · left
      simp [doSave, hf, hbal, emit, Event.isEffect, Event.isBalanceRead]
    · obtain ⟨herr, hnone, hsome⟩ := doSave_run c cfg s hf hbal
      cases hu : (updateTokenBalance c cfg .SAVE s).result with
      | error m =>
        left
        rw [(herr m hu).1]
        intro e he
        simp only [List.mem_append, List.mem_singleton] at he
        rcases he with he | he
        · exact updateTokenBalance_error_quiet c cfg _ s m hu e he
        · rw [he]
          exact ⟨rfl, rfl⟩
      | ok u =>
        right
        obtain ⟨t, i, F, hF, hFq⟩ := updateTokenBalance_ok_split c cfg .SAVE s hu
        cases hd : Local_getFile s.store s.file with
        | none =>
          refine ⟨[Event.getNetwork true], t, i, F,
            [Event.alert "Failed to process token payment"], ?_, ?_, ?_, ?_⟩
          · rw [(hnone hu hd).1, hF]
            simp
          · simp [Event.isEffect, Event.isBalanceRead, Event.hasLabel]
          · exact fun e he => ⟨(hFq e he).1, (hFq e he).2.1⟩
          · simp [Event.isBalanceRead, Event.hasLabel]
        | some data =>
          refine ⟨[Event.getNetwork true], t, i, F,
            [Event._saveFile
                { created := data.created
                  modified := (c.dateToString (c.getSpreadsheetContent
                    (updateTokenBalance c cfg .SAVE s).sys.world).2).1
                  content := c.encodeURIComponent (c.getSpreadsheetContent
                    (updateTokenBalance c cfg .SAVE s).sys.world).1
                  name := s.file },
              Event.updateSelectedFile s.file,
              Event.alert ("File " ++ s.file ++ " updated successfully!")], ?_, ?_, ?_, ?_⟩
          · rw [(hsome hu data hd).1, hF]
            simp
          · simp [Event.isEffect, Event.isBalanceRead, Event.hasLabel]
          · exact fun e he => ⟨(hFq e he).1, (hFq e he).2.1⟩
          · simp [Event.isBalanceRead, Event.hasLabel]
  | SAVE_AS =>
    simp only [onClick]
    by_cases hvalid : ∃ filename, (c.prompt "Enter filename:" s.world).1 = some filename ∧
        filename ≠ "" ∧ ¬ s.state.numOfTokens < (cfg.TOKEN_COST .SAVE_AS).value ∧
        _validateName filename = true
    · obtain ⟨filename, hp, hne, hbal, hv⟩ := hvalid
      obtain ⟨fileData, s1, -, herr, hmid, hok⟩ := doSaveAs_valid c cfg s filename hp hne hbal hv
      have hq := chooseAndUploadToIPFS_quiet c fileData s1
      cases hc : (chooseAndUploadToIPFS c fileData s1).result with
      | error m =>
        left
        rw [(herr m hc).1]
        intro e he
        simp only [List.mem_cons, List.mem_append, List.mem_singleton, List.not_mem_nil, or_false] at he
        rcases he with he | he | he | he
        · rw [he]
          exact ⟨rfl, rfl⟩
        · exact ⟨(hq e he).1, (hq e he).2.1⟩
        · rw [he]
          exact ⟨rfl, rfl⟩
        · rw [he]
          exact ⟨rfl, rfl⟩
      | ok cid =>
        cases hu : (updateTokenBalance c cfg .SAVE_AS
            (chooseAndUploadToIPFS c fileData s1).sys).result with
        | error m =>
          left
          rw [(hmid cid m hc hu).1]
          intro e he
          simp only [List.mem_cons, List.mem_append, List.mem_singleton, List.not_mem_nil, or_false] at he
          rcases he with he | he | he | he | he
          · rw [he]
            exact ⟨rfl, rfl⟩
          · exact ⟨(hq e he).1, (hq e he).2.1⟩
          · exact updateTokenBalance_error_quiet c cfg _ _ m hu e he
          · rw [he]
            exact ⟨rfl, rfl⟩
          · rw [he]
            exact ⟨rfl, rfl⟩
        | ok u =>
          right
          obtain ⟨record, -, hev⟩ := hok cid hc hu
          obtain ⟨t, i, F, hF, hFq⟩ := updateTokenBalance_ok_split c cfg .SAVE_AS _ hu
          refine ⟨Event.prompt "Enter filename:" (some filename) ::
            ((chooseAndUploadToIPFS c fileData s1).events ++ [Event.getNetwork true]),
            t, i, F,
            [Event._saveFile record, Event.updateSelectedFile filename,
              Event.showSaveSuccessModal filename cid
                (gatewayUrl
                  (updateTokenBalance c cfg .SAVE_AS
                    (chooseAndUploadToIPFS c fileData s1).sys).sys.state.uploadMethod
                  cid)], ?_, ?_, ?_, ?_⟩
          · rw [hev, hF]
            simp
          · intro e he
            simp only [List.mem_cons, List.mem_append, List.mem_singleton, List.not_mem_nil, or_false] at he
            rcases he with he | he | he
            · rw [he]
              exact ⟨rfl, rfl, rfl⟩
            · exact ⟨(hq e he).1, (hq e he).2.1, (hq e he).2.2.2⟩
            · rw [he]
              exact ⟨rfl, rfl, rfl⟩
          · exact fun e he => ⟨(hFq e he).1, (hFq e he).2.1⟩
          · simp [Event.isBalanceRead, Event.hasLabel]
    · left
      have hearly := doSaveAs_early c cfg s (fun filename hp hne hbal => by
        cases hv : _validateName filename
        · rfl
        · exact absurd ⟨filename, hp, hne, hbal, hv⟩ hvalid)
      obtain ⟨⟨l, hl, hal⟩, -⟩ := hearly
      rw [hl]
      intro e he
      simp only [List.mem_cons] at he
      rcases he with he | he
      · rw [he]
        exact ⟨rfl, rfl⟩
      · obtain ⟨message, hm⟩ := hal e he
        rw [hm]
        exact ⟨rfl, rfl⟩

/-- A handler run with a cached balance below the cost shows dialogs only. -/
theorem onClick_insufficient {W : Type} (c : Collab W) (cfg : Config) (op : Op) (s : Sys W)
    (h : s.state.numOfTokens < (cfg.TOKEN_COST op).value) :
    (∀ e ∈ (onClick c cfg op s).events,
      (∃ message, e = Event.alert message) ∨ ∃ message answer, e = Event.prompt message answer) ∧
    (onClick c cfg op s).sys.store = s.store := by
  cases op
  · simp [onClick, doPrint, h, emit]
  · simp only [onClick, doSave, bind_eq, bind_getPropsFile_run, ite_run]
    by_cases hf : s.file = "default"
    · simp [hf, emit]
    · simp [hf, h, emit]
  · simp only [onClick, doSaveAs, bind_eq, bind_ask_run]
    cases hp : (c.prompt "Enter filename:" s.world).1 with
    | none => simp [Act.pure]
    | some filename =>
      simp only [ite_run]
      by_cases hne : filename = ""
      · simp [hne, Act.pure]
      · simp [hne, h, emit]

/-! ## The claims -/

/-- C1. For every operation kind, when the balance held by the component is below
`TOKEN_COST` of that kind, the run of its handler makes no debit call (`contract.transfer`)
and no protected effect (no print window call, no `_saveFile`, no `updateSelectedFile`), and
the stored records are as before. -/
theorem insufficient_balance_no_debit_no_effect {W : Type} (c : Collab W) (cfg : Config)
    (op : Op) (s : Sys W) (h : s.state.numOfTokens < (cfg.TOKEN_COST op).value) :
    (∀ e ∈ (onClick c cfg op s).events, e.isDebit = false ∧ e.isEffect = false) ∧
    (onClick c cfg op s).sys.store = s.store := by
  obtain ⟨hev, hstore⟩ := onClick_insufficient c cfg op s h
  refine ⟨fun e he => ?_, hstore⟩
  rcases hev e he with ⟨message, hm⟩ | ⟨message, answer, hm⟩ <;> rw [hm] <;> exact ⟨rfl, rfl⟩

/-- C1 at Save As with a balance of 1 and a cost of 3. -/
theorem insufficient_balance_no_debit_no_effect_witness :
    (∀ e ∈ (onClick scripted sampleConfig .SAVE_AS
        (sampleSys sampleScript 1 [] "default")).events,
      e.isDebit = false ∧ e.isEffect = false) ∧
    (onClick scripted sampleConfig .SAVE_AS (sampleSys sampleScript 1 [] "default")).sys.store =
      [] :=
  insufficient_balance_no_debit_no_effect scripted sampleConfig .SAVE_AS
    (sampleSys sampleScript 1 [] "default") (by decide)

/-- C2. In every run of `doPrint`, `doSave` and `doSaveAs`, a protected effect comes only
after the transfer of the cost of that operation kind returned and then `tx.wait()`
returned; and when `updateTokenBalance` threw (it logged "Error transferring tokens:"), the
run makes no protected effect. -/
theorem effect_only_after_confirmed_debit {W : Type} (c : Collab W) (cfg : Config) (op : Op)
    (s : Sys W) :
    (∀ pre e post, (onClick c cfg op s).events = pre ++ e :: post → e.isEffect = true →
      ∃ t i, [Event.transfer t i (cfg.TOKEN_COST op) true, Event.wait true].Sublist pre) ∧
    ((∃ m, Event.consoleError "Error transferring tokens:" m ∈ (onClick c cfg op s).events) →
      ∀ e ∈ (onClick c cfg op s).events, e.isEffect = false) := by
  rcases onClick_cases c cfg op s with hq | ⟨A, t, i, F, tail, hev, hA, hF, htail⟩
  · refine ⟨fun pre e post h he => ⟨none, none, ?_⟩, fun _ e he => (hq e he).1⟩
    exact after_none (p := Event.isEffect) (fun e he => (hq e he).1) _ pre e post h he
  · refine ⟨fun pre e post h he => ⟨t, i, ?_⟩, ?_⟩
    · have hsplit : (onClick c cfg op s).events =
          (A ++ [Event.transfer t i (cfg.TOKEN_COST op) true, Event.wait true] ++ F) ++ tail := by
        rw [hev]
        simp
      rw [hsplit] at h
      refine after_initial_segment (p := Event.isEffect) ?_ ?_ pre e post h he
      · intro e1 he1
        simp only [List.mem_cons, List.mem_append, List.mem_singleton, List.not_mem_nil,
          or_false] at he1
        rcases he1 with (he1 | he1 | he1) | he1
        · exact (hA e1 he1).1
        · rw [he1]
          rfl
        · rw [he1]
          rfl
        · exact (hF e1 he1).1
      · exact ((List.sublist_append_right A _).trans (List.sublist_append_left _ F))
    · rintro ⟨m, hm⟩
      exfalso
      rw [hev] at hm
      simp only [List.mem_cons, List.mem_append, List.mem_singleton, List.not_mem_nil,
        or_false] at hm
      rcases hm with hm | hm | hm | hm | hm
      · have := (hA _ hm).2.2
        simp [Event.hasLabel] at this
      · cases hm
      · cases hm
      · have := (hF _ hm).2
        simp [Event.hasLabel] at this
      · have := (htail _ hm).2
        simp [Event.hasLabel] at this

/-- C2 at Print with a balance of 5: the window is opened after the confirmed transfer. -/
theorem effect_only_after_confirmed_debit_witness :
    ∃ t i, [Event.transfer t i (sampleConfig.TOKEN_COST .PRINT) true, Event.wait true].Sublist
      [Event.getNetwork true,
        Event.transfer (some "0xT0KEN") (some "0x1NV01CE") (sampleConfig.TOKEN_COST .PRINT) true,
        Event.wait true, Event.getNetwork true, Event.getUserTokens (some "0x1NV01CE") true] :=
  (effect_only_after_confirmed_debit scripted sampleConfig .PRINT
    (sampleSys sampleScript 5 [] "default")).1 _ (Event.windowOpen true)
    [Event.documentWrite "<table></table>", Event.printWindowPrint, Event.printWindowClose]
    (by decide) rfl

/-- C3. When the upload step of `doSaveAs` fails (`chooseAndUploadToIPFS` threw and logged
"IPFS Upload Error:"), the run makes no debit call and no `_saveFile` or
`updateSelectedFile` call, and the stored records are as before. -/
theorem failed_upload_no_debit_no_record {W : Type} (c : Collab W) (cfg : Config) (s : Sys W)
    (h : ∃ m, Event.consoleError "IPFS Upload Error:" m ∈ (doSaveAs c cfg s).events) :
    (∀ e ∈ (doSaveAs c cfg s).events, e.isDebit = false ∧ e.isEffect = false) ∧
    (doSaveAs c cfg s).sys.store = s.store := by
  obtain ⟨m, hm⟩ := h
  by_cases hvalid : ∃ filename, (c.prompt "Enter filename:" s.world).1 = some filename ∧
      filename ≠ "" ∧ ¬ s.state.numOfTokens < (cfg.TOKEN_COST .SAVE_AS).value ∧
      _validateName filename = true
  · obtain ⟨filename, hp, hne, hbal, hv⟩ := hvalid
    obtain ⟨fileData, s1, hs1, herr, hmid, hok⟩ := doSaveAs_valid c cfg s filename hp hne hbal hv
    have hq := chooseAndUploadToIPFS_quiet c fileData s1
    cases hc : (chooseAndUploadToIPFS c fileData s1).result with
    | error m1 =>
      refine ⟨fun e he => ?_, ?_⟩
      · rw [(herr m1 hc).1] at he
        simp only [List.mem_cons, List.mem_append, List.mem_singleton, List.not_mem_nil,
          or_false] at he
        rcases he with he | he | he | he
        · rw [he]
          exact ⟨rfl, rfl⟩
        · exact ⟨(hq e he).2.2.1, (hq e he).1⟩
        · rw [he]
          exact ⟨rfl, rfl⟩
        · rw [he]
          exact ⟨rfl, rfl⟩
      · rw [(herr m1 hc).2, (chooseAndUploadToIPFS_keeps c fileData s1).1, hs1]
    | ok cid =>
      exfalso
      have hnolog := (chooseAndUploadToIPFS_ok c fileData s1 cid hc).2.2.1
      have hu0 := updateTokenBalance_avoids c cfg .SAVE_AS
        (p := Event.hasLabel "IPFS Upload Error:") (fun _ => rfl) (fun _ _ => rfl)
        (fun _ => rfl) (fun _ _ _ _ => rfl) (fun _ => rfl) (fun _ => rfl)
        (chooseAndUploadToIPFS c fileData s1).sys
      cases hu : (updateTokenBalance c cfg .SAVE_AS
          (chooseAndUploadToIPFS c fileData s1).sys).result with
      | error m1 =>
        rw [(hmid cid m1 hc hu).1] at hm
        simp only [List.mem_cons, List.mem_append, List.mem_singleton, List.not_mem_nil,
          or_false] at hm
        rcases hm with hm | hm | hm | hm | hm
        · cases hm
        · have := hnolog _ hm
          simp [Event.hasLabel] at this
        · have := hu0 _ hm
          simp [Event.hasLabel] at this
        · simp at hm
        · cases hm
      | ok u =>
        obtain ⟨record, -, hev⟩ := hok cid hc hu
        rw [hev] at hm
        simp only [List.mem_cons, List.mem_append, List.mem_singleton, List.not_mem_nil,
          or_false] at hm
        rcases hm with hm | hm | hm | hm | hm | hm
        · cases hm
        · have := hnolog _ hm
          simp [Event.hasLabel] at this
        · have := hu0 _ hm
          simp [Event.hasLabel] at this
        · cases hm
        · cases hm
        · cases hm
  · exfalso
    obtain ⟨⟨l, hl, hal⟩, -⟩ := doSaveAs_early c cfg s (fun filename hp hne hbal => by
      cases hv : _validateName filename
      · rfl
      · exact absurd ⟨filename, hp, hne, hbal, hv⟩ hvalid)
    rw [hl] at hm
    simp only [List.mem_cons] at hm
    rcases hm with hm | hm
    · cases hm
    · obtain ⟨message, hmsg⟩ := hal _ hm
      cases hmsg

/-- C3 at a Lighthouse upload that fails with "quota exceeded". -/
theorem failed_upload_no_debit_no_record_witness :
    (∀ e ∈ (doSaveAs scripted sampleConfig (sampleSys failingUploadScript 5 [] "default")).events,
      e.isDebit = false ∧ e.isEffect = false) ∧
    (doSaveAs scripted sampleConfig (sampleSys failingUploadScript 5 [] "default")).sys.store =
      [] :=
  failed_upload_no_debit_no_record scripted sampleConfig
    (sampleSys failingUploadScript 5 [] "default") ⟨"quota exceeded", by decide⟩

/-- C5 fails: with a cached balance of 0 and a ledger balance of 5 tokens, `doPrint` asks
for 1 token and returns without any `getUserTokens` call. -/
theorem cached_balance_counterexample :
    (doPrint scripted sampleConfig (sampleSys sampleScript 0 [] "default")).events =
      [Event.alert "You need at least 1 MediToken to print"] ∧
    sampleScript.userTokens = .ok (5 * 10 ^ 18) ∧
    ¬ ∃ e ∈ (doPrint scripted sampleConfig (sampleSys sampleScript 0 [] "default")).events,
      e.isBalanceRead = true := by
  refine ⟨by decide, rfl, by decide⟩

/-- C5 as amended. Every guarded operation compares the cost with the balance held in the
component state, without reading the ledger first: in every run a `getUserTokens` call comes
only after `tx.wait()` returned, and with a held balance below the cost the run makes no
`getUserTokens` call at all. -/
theorem balance_read_only_after_confirmed_debit {W : Type} (c : Collab W) (cfg : Config)
    (op : Op) (s : Sys W) :
    (∀ pre e post, (onClick c cfg op s).events = pre ++ e :: post → e.isBalanceRead = true →
      Event.wait true ∈ pre) ∧
    (s.state.numOfTokens < (cfg.TOKEN_COST op).value →
      ∀ e ∈ (onClick c cfg op s).events, e.isBalanceRead = false) := by
  constructor
  · intro pre e post h he
    rw [← List.singleton_sublist]
    rcases onClick_cases c cfg op s with hq | ⟨A, t, i, F, tail, hev, hA, -, -⟩
    · exact after_none (p := Event.isBalanceRead) (fun e he => (hq e he).2) _ pre e post h he
    · have hsplit : (onClick c cfg op s).events =
          (A ++ [Event.transfer t i (cfg.TOKEN_COST op) true, Event.wait true]) ++
            (F ++ tail) := by
        rw [hev]
        simp
      rw [hsplit] at h
      refine after_initial_segment (p := Event.isBalanceRead) ?_ ?_ pre e post h he
      · intro e1 he1
        simp only [List.mem_cons, List.mem_append, List.mem_singleton, List.not_mem_nil,
          or_false] at he1
        rcases he1 with he1 | he1 | he1
        · exact (hA e1 he1).2.1
        · rw [he1]
          rfl
        · rw [he1]
          rfl
      · rw [List.singleton_sublist]
        simp
  · intro hlow e he
    rcases (onClick_insufficient c cfg op s hlow).1 e he with ⟨message, hm⟩ | ⟨message, answer, hm⟩ <;>
      rw [hm] <;> rfl

/-- C5 as amended, at Save with a held balance of 5: the balance is read after the wait. -/
theorem balance_read_only_after_confirmed_debit_witness :
    Event.wait true ∈
      [Event.getNetwork true,
        Event.transfer (some "0xT0KEN") (some "0x1NV01CE") (sampleConfig.TOKEN_COST .SAVE) true,
        Event.wait true, Event.getNetwork true] :=
  (balance_read_only_after_confirmed_debit scripted sampleConfig .SAVE
    (sampleSys sampleScript 5 [⟨"c0", "m0", "x", "inv"⟩] "inv")).1 _
    (Event.getUserTokens (some "0x1NV01CE") true)
    [Event._saveFile
        { created := "c0", modified := "Thu Nov 05 2026",
          content := "version%3A1.5%20cell%3AA1", name := "inv" },
      Event.updateSelectedFile "inv", Event.alert "File inv updated successfully!"]
    (by decide) rfl

/-- C6 fails: with a valid filename, a balance of 1 and a cost of 3, `doSaveAs` shows the
alert and returns; it neither prompts for the upload method nor uploads. -/
theorem saveAs_checks_balance_first_counterexample :
    _validateName "report" = true ∧
    (doSaveAs scripted sampleConfig (sampleSys sampleScript 1 [] "default")).events =
      [Event.prompt "Enter filename:" (some "report"),
        Event.alert "You need at least 3 MediToken to save"] ∧
    ¬ ∃ e ∈ (doSaveAs scripted sampleConfig (sampleSys sampleScript 1 [] "default")).events,
      e.isMethodPrompt = true ∨ e.isUpload = true := by
  refine ⟨by decide, by decide, by decide⟩

/-- C6 as amended. In Save-As the balance check comes before the filename validation and the
upload step: for a non-empty filename with a balance below the SAVE_AS cost, `doSaveAs` shows
the alert and returns, without prompting for the upload method, uploading, debiting or
persisting a record. -/
theorem saveAs_insufficient_balance_stops_before_upload {W : Type} (c : Collab W)
    (cfg : Config) (s : Sys W) (filename : String)
    (hp : (c.prompt "Enter filename:" s.world).1 = some filename) (hne : filename ≠ "")
    (hbal : s.state.numOfTokens < (cfg.TOKEN_COST .SAVE_AS).value) :
    (doSaveAs c cfg s).events =
      [Event.prompt "Enter filename:" (some filename),
        Event.alert
          ("You need at least " ++ (cfg.TOKEN_COST .SAVE_AS).text ++ " MediToken to save")] ∧
    (doSaveAs c cfg s).sys.store = s.store ∧
    (doSaveAs c cfg s).sys.state = s.state := by
  simp only [doSaveAs, bind_eq, bind_ask_run, hp, ite_run, if_neg hne, bind_getState_run,
    if_pos hbal]
  simp [emit]

/-- C6 as amended, at the filename "report" with a balance of 1 and a cost of 3. -/
theorem saveAs_insufficient_balance_stops_before_upload_witness :
    (doSaveAs scripted sampleConfig (sampleSys sampleScript 1 [] "default")).events =
      [Event.prompt "Enter filename:" (some "report"),
        Event.alert
          ("You need at least " ++ (sampleConfig.TOKEN_COST .SAVE_AS).text ++
            " MediToken to save")] ∧
    (doSaveAs scripted sampleConfig (sampleSys sampleScript 1 [] "default")).sys.store = [] ∧
    (doSaveAs scripted sampleConfig (sampleSys sampleScript 1 [] "default")).sys.state =
      (sampleSys sampleScript 1 [] "default").state :=
  saveAs_insufficient_balance_stops_before_upload scripted sampleConfig
    (sampleSys sampleScript 1 [] "default") "report" rfl (by decide) (by decide)

/-- Storacha chosen without a configured account, at `chooseAndUploadToIPFS`. -/
theorem chooseAndUploadToIPFS_needsSetup {W : Type} (c : Collab W) (fileData : FileData)
    (s : Sys W) (hm : (c.resolveUploadMethod s.world).1 = "storacha")
    (hs : isStorachaAccountSetup c (c.resolveUploadMethod s.world).2 = false) :
    (chooseAndUploadToIPFS c fileData s).result = .error "Storacha account not set up" ∧
    (chooseAndUploadToIPFS c fileData s).events =
      [Event.promptUploadMethod "storacha",
        Event.promptStorachaAccountSetup
          (c.resolveStorachaSetup (c.resolveUploadMethod s.world).2).1,
        Event.consoleError "IPFS Upload Error:" "Storacha account not set up"] := by
  obtain ⟨s1, hw, -, -, hrun⟩ := chooseAndUploadToIPFS_run c fileData s
  rw [← hw] at hs
  obtain ⟨h1, h2, -⟩ := uploadWithMethod_needsSetup c fileData s1 hs
  rw [hrun, hm, h1, h2, hw]
  simp

/-- C7. `isStorachaAccountSetup` is true exactly when the stored account email and the stored
space identifier are both present and non-empty. In every Save-As in which the user chooses
Storacha while `isStorachaAccountSetup` is false, the setup prompt is shown and the workflow
aborts with the error "Storacha account not set up": no upload backend is called, no debit is
made and no record is persisted. -/
theorem storacha_not_set_up_aborts {W : Type} (c : Collab W) (cfg : Config) (s : Sys W)
    (filename : String) (hp : (c.prompt "Enter filename:" s.world).1 = some filename)
    (hne : filename ≠ "") (hbal : ¬ s.state.numOfTokens < (cfg.TOKEN_COST .SAVE_AS).value)
    (hv : _validateName filename = true)
    (hm : (c.resolveUploadMethod (worldAtUpload c s.world)).1 = "storacha")
    (hs : isStorachaAccountSetup c (c.resolveUploadMethod (worldAtUpload c s.world)).2 = false) :
    (∀ w, isStorachaAccountSetup c w = true ↔
      ∃ email space, c.getItem "ipfsUserEmail" w = some email ∧ email ≠ "" ∧
        c.getItem "ipfsUserSpace" w = some space ∧ space ≠ "") ∧
    (doSaveAs c cfg s).events =
      [Event.prompt "Enter filename:" (some filename),
        Event.promptUploadMethod "storacha",
        Event.promptStorachaAccountSetup
          (c.resolveStorachaSetup (c.resolveUploadMethod (worldAtUpload c s.world)).2).1,
        Event.consoleError "IPFS Upload Error:" "Storacha account not set up",
        Event.consoleError "Save As error:" "Storacha account not set up",
        Event.alert "Error saving file: Storacha account not set up"] ∧
    (∀ e ∈ (doSaveAs c cfg s).events,
      e.isUpload = false ∧ e.isDebit = false ∧ e.isEffect = false) ∧
    (doSaveAs c cfg s).sys.store = s.store := by
  have hsetup : ∀ w, isStorachaAccountSetup c w = true ↔
      ∃ email space, c.getItem "ipfsUserEmail" w = some email ∧ email ≠ "" ∧
        c.getItem "ipfsUserSpace" w = some space ∧ space ≠ "" := by
    intro w
    simp only [isStorachaAccountSetup]
    cases c.getItem "ipfsUserEmail" w <;> cases c.getItem "ipfsUserSpace" w <;> simp [truthy]
  have hev : (doSaveAs c cfg s).events =
      [Event.prompt "Enter filename:" (some filename),
        Event.promptUploadMethod "storacha",
        Event.promptStorachaAccountSetup
          (c.resolveStorachaSetup (c.resolveUploadMethod (worldAtUpload c s.world)).2).1,
        Event.consoleError "IPFS Upload Error:" "Storacha account not set up",
        Event.consoleError "Save As error:" "Storacha account not set up",
        Event.alert "Error saving file: Storacha account not set up"] ∧
      (doSaveAs c cfg s).sys.store = s.store := by
    simp only [doSaveAs, bind_eq, bind_ask_run, hp, ite_run, if_neg hne, bind_getState_run,
      if_neg hbal, hv, if_true, Act.tryCatch]
    have hch := chooseAndUploadToIPFS_needsSetup c
      { name := filename
        content := c.encodeURIComponent
          (c.getSpreadsheetContent (c.prompt "Enter filename:" s.world).2).1
        created := (c.dateToString
          (c.getSpreadsheetContent (c.prompt "Enter filename:" s.world).2).2).1
        modified := (c.dateToString (c.dateToString
          (c.getSpreadsheetContent (c.prompt "Enter filename:" s.world).2).2).2).1 }
      { world := worldAtUpload c s.world, state := s.state, store := s.store, file := s.file }
      hm hs
    have hkeep := chooseAndUploadToIPFS_keeps c
      { name := filename
        content := c.encodeURIComponent
          (c.getSpreadsheetContent (c.prompt "Enter filename:" s.world).2).1
        created := (c.dateToString
          (c.getSpreadsheetContent (c.prompt "Enter filename:" s.world).2).2).1
        modified := (c.dateToString (c.dateToString
          (c.getSpreadsheetContent (c.prompt "Enter filename:" s.world).2).2).2).1 }
      { world := worldAtUpload c s.world, state := s.state, store := s.store, file := s.file }
    simp only [worldAtUpload] at hch hkeep
    rw [bind_error_run hch.1]
    simp [emit, hch.2, hkeep.1, worldAtUpload]
  refine ⟨hsetup, hev.1, ?_, hev.2⟩
  rw [hev.1]
  intro e he
  simp only [List.mem_cons, List.mem_singleton, List.not_mem_nil, or_false] at he
  rcases he with he | he | he | he | he | he <;> rw [he] <;> exact ⟨rfl, rfl, rfl⟩

/-- C7 at a script in which the user chooses Storacha and nothing is stored locally. -/
theorem storacha_not_set_up_aborts_witness :
    (doSaveAs scripted sampleConfig (sampleSys noAccountScript 5 [] "default")).events =
      [Event.prompt "Enter filename:" (some "report"),
        Event.promptUploadMethod "storacha",
        Event.promptStorachaAccountSetup "cancel",
        Event.consoleError "IPFS Upload Error:" "Storacha account not set up",
        Event.consoleError "Save As error:" "Storacha account not set up",
        Event.alert "Error saving file: Storacha account not set up"] :=
  (storacha_not_set_up_aborts scripted sampleConfig (sampleSys noAccountScript 5 [] "default")
    "report" rfl (by decide) (by decide) (by decide) rfl (by decide)).2.1

theorem hexDigitValue_digitChar (k : Nat) (hk : k < 16) :
    hexDigitValue (Nat.digitChar k) = k ∧ isLowerHexDigit (Nat.digitChar k) = true := by
  interval_cases k <;> exact ⟨by decide, by decide⟩

theorem hexValue_toDigitsCore (fuel : Nat) :
    ∀ n ds, n < fuel →
      (Nat.toDigitsCore 16 fuel n ds).foldl (fun acc ch => 16 * acc + hexDigitValue ch) 0 =
        ds.foldl (fun acc ch => 16 * acc + hexDigitValue ch) n := by
  induction fuel with
  | zero => intro n ds h; omega
  | succ fuel ih =>
    intro n ds h
    have hd := (hexDigitValue_digitChar (n % 16) (Nat.mod_lt _ (by decide))).1
    simp only [Nat.toDigitsCore]
    by_cases h0 : n / 16 = 0
    · rw [if_pos h0]
      simp only [List.foldl_cons, hd]
      congr 1
      omega
    · rw [if_neg h0, ih (n / 16) _ (by omega)]
      simp only [List.foldl_cons, hd]
      congr 1
      omega

theorem isLowerHexDigit_toDigitsCore (fuel : Nat) :
    ∀ n ds, (∀ ch ∈ ds, isLowerHexDigit ch = true) →
      ∀ ch ∈ Nat.toDigitsCore 16 fuel n ds, isLowerHexDigit ch = true := by
  induction fuel with
  | zero =>
    intro n ds h ch hch
    exact h ch hch
  | succ fuel ih =>
    intro n ds h
    have hd := (hexDigitValue_digitChar (n % 16) (Nat.mod_lt _ (by decide))).2
    have hds : ∀ ch ∈ Nat.digitChar (n % 16) :: ds, isLowerHexDigit ch = true := by
      intro ch hch
      simp only [List.mem_cons] at hch
      rcases hch with hch | hch
      · rw [hch]
        exact hd
      · exact h ch hch
    simp only [Nat.toDigitsCore]
    by_cases h0 : n / 16 = 0
    · rw [if_pos h0]
      exact hds
    · rw [if_neg h0]
      exact ih (n / 16) _ hds

/-- The string `toString16 n` is the lowercase hexadecimal numeral of `n`. -/
theorem toString16_spec (n : Nat) :
    hexValue (toString16 n) = n ∧ ∀ ch ∈ (toString16 n).data, isLowerHexDigit ch = true := by
  constructor
  · simp only [hexValue, toString16, Nat.toDigits]
    rw [hexValue_toDigitsCore (n + 1) n [] (by omega)]
    rfl
  · simp only [toString16, Nat.toDigits]
    exact isLowerHexDigit_toDigitsCore (n + 1) n [] (by simp)

theorem toDigitsCore_head (fuel : Nat) :
    ∀ n ds, 0 < n → n < fuel → (Nat.toDigitsCore 16 fuel n ds).head? ≠ some '0' := by
  induction fuel with
  | zero => intro n ds _ h; omega
  | succ fuel ih =>
    intro n ds hpos h
    simp only [Nat.toDigitsCore]
    by_cases h0 : n / 16 = 0
    · rw [if_pos h0]
      have hlt : n < 16 := by omega
      have hmod : n % 16 = n := Nat.mod_eq_of_lt hlt
      rw [hmod]
      simp only [List.head?_cons, ne_eq, Option.some.injEq]
      interval_cases n <;> decide
    · rw [if_neg h0]
      exact ih (n / 16) _ (by omega) (by omega)

/-- The string `toString16 n` has no leading zero, except "0" itself. -/
theorem toString16_canonical (n : Nat) :
    (n = 0 → toString16 n = "0") ∧ (0 < n → (toString16 n).data.head? ≠ some '0') := by
  constructor
  · intro h
    rw [h]
    rfl
  · intro h
    simp only [toString16, Nat.toDigits]
    exact toDigitsCore_head (n + 1) n [] h (by omega)

theorem findNetwork_eq_none (chainIdHex : String) (table : List (String × String)) :
    findNetwork chainIdHex table = none ↔ ∀ entry ∈ table, entry.2 ≠ chainIdHex := by
  induction table with
  | nil => simp [findNetwork]
  | cons head rest ih =>
    obtain ⟨network, chainId⟩ := head
    simp only [findNetwork]
    by_cases h : chainId = chainIdHex
    · simp [h]
    · simp [h, ih]

theorem findNetwork_eq_some (chainIdHex : String) (table : List (String × String))
    (k : String) :
    findNetwork chainIdHex table = some k ↔
      ∃ pre post, table = pre ++ (k, chainIdHex) :: post ∧
        ∀ entry ∈ pre, entry.2 ≠ chainIdHex := by
  induction table with
  | nil => simp [findNetwork]
  | cons head rest ih =>
    obtain ⟨network, chainId⟩ := head
    simp only [findNetwork]
    by_cases h : chainId = chainIdHex
    · simp only [h, if_true, Option.some.injEq]
      constructor
      · intro hk
        exact ⟨[], rest, by simp [hk], by simp⟩
      · rintro ⟨pre, post, hsplit, hpre⟩
        cases pre with
        | nil =>
          simp only [List.nil_append, List.cons.injEq, Prod.mk.injEq] at hsplit
          exact hsplit.1.1
        | cons first pre1 =>
          simp only [List.cons_append, List.cons.injEq] at hsplit
          exact absurd (by rw [← hsplit.1]) (hpre first (by simp))
    · simp only [h, if_false, ih]
      constructor
      · rintro ⟨pre, post, hsplit, hpre⟩
        refine ⟨(network, chainId) :: pre, post, by simp [hsplit], ?_⟩
        intro entry he
        simp only [List.mem_cons] at he
        rcases he with he | he
        · rw [he]
          exact h
        · exact hpre entry he
      · rintro ⟨pre, post, hsplit, hpre⟩
        cases pre with
        | nil =>
          simp only [List.nil_append, List.cons.injEq, Prod.mk.injEq] at hsplit
          exact absurd hsplit.1.2 h
        | cons first pre1 =>
          simp only [List.cons_append, List.cons.injEq] at hsplit
          exact ⟨pre1, post, hsplit.2, fun entry he => hpre entry (by simp [he])⟩

theorem getNetworkKey_result {W : Type} (c : Collab W) (cfg : Config) (s : Sys W)
    (chainId : Nat) (h : (c.getNetwork s.world).1 = .ok chainId) :
    (getNetworkKey c cfg s).result =
      match findNetwork ("0x" ++ toString16 chainId) cfg.SUPPORTED_NETWORKS with
      | some network => .ok network
      | none => .error "Unsupported network" := by
  simp only [getNetworkKey, bind_eq, Act.bind, askE, h]
  cases findNetwork ("0x" ++ toString16 chainId) cfg.SUPPORTED_NETWORKS <;>
    simp [Act.pure, Act.throw]

/-- C8. For every active chain id and every `SUPPORTED_NETWORKS` table, `getNetworkKey`
returns the first key in table order whose configured `chainId` is "0x" followed by the
lowercase hexadecimal form of the chain id; it fails with "Unsupported network" exactly when
no configured entry matches; and `getContractAddresses` then returns the token and invoice
addresses configured for that key. The hexadecimal form `toString16` denotes the chain id,
uses the digits 0-9 and a-f only and has no leading zero. -/
theorem getNetworkKey_resolves {W : Type} (c : Collab W) (cfg : Config) (s : Sys W)
    (chainId : Nat) (h : (c.getNetwork s.world).1 = .ok chainId) :
    (∀ k, (getNetworkKey c cfg s).result = .ok k ↔
      ∃ pre post, cfg.SUPPORTED_NETWORKS = pre ++ (k, "0x" ++ toString16 chainId) :: post ∧
        ∀ entry ∈ pre, entry.2 ≠ "0x" ++ toString16 chainId) ∧
    ((getNetworkKey c cfg s).result = .error "Unsupported network" ↔
      ∀ entry ∈ cfg.SUPPORTED_NETWORKS, entry.2 ≠ "0x" ++ toString16 chainId) ∧
    (∀ k, (getNetworkKey c cfg s).result = .ok k →
      (getContractAddresses c cfg s).result =
        .ok { mediToken := cfg.MEDT_TOKEN_ADDRESSES k
              mediInvoice := cfg.MEDI_INVOICE_ADDRESSES k }) ∧
    hexValue (toString16 chainId) = chainId ∧
    (∀ ch ∈ (toString16 chainId).data, isLowerHexDigit ch = true) ∧
    (0 < chainId → (toString16 chainId).data.head? ≠ some '0') := by
  have hres := getNetworkKey_result c cfg s chainId h
  refine ⟨fun k => ?_, ?_, fun k hk => ?_, (toString16_spec chainId).1,
    (toString16_spec chainId).2, (toString16_canonical chainId).2⟩
  · rw [hres, ← findNetwork_eq_some]
    cases findNetwork ("0x" ++ toString16 chainId) cfg.SUPPORTED_NETWORKS <;> simp
  · rw [hres, ← findNetwork_eq_none]
    cases findNetwork ("0x" ++ toString16 chainId) cfg.SUPPORTED_NETWORKS <;> simp
  · simp only [getContractAddresses, bind_eq]
    rw [bind_ok_run hk]
    simp [Act.pure]

/-- C8 on Sepolia, chain id 11155111: the key is "SEPOLIA". -/
theorem getNetworkKey_resolves_witness :
    (getNetworkKey scripted sampleConfig (sampleSys sampleScript 5 [] "default")).result =
        .ok "SEPOLIA" ∧
      "0x" ++ toString16 11155111 = "0xaa36a7" ∧
      (getContractAddresses scripted sampleConfig (sampleSys sampleScript 5 [] "default")).result =
        .ok { mediToken := some "0xT0KEN", mediInvoice := some "0x1NV01CE" } :=
  ⟨((getNetworkKey_resolves scripted sampleConfig (sampleSys sampleScript 5 [] "default")
      11155111 rfl).1 "SEPOLIA").2 ⟨[], [], rfl, by simp⟩,
    by decide,
    (getNetworkKey_resolves scripted sampleConfig (sampleSys sampleScript 5 [] "default")
      11155111 rfl).2.2.1 "SEPOLIA" rfl⟩

theorem Local_getFile_saveFile (store : List Files) (file : Files) :
    Local_getFile (Local_saveFile store file) file.name = some file := by
  simp [Local_getFile, Local_saveFile]

/-- C9. For a file other than "default" that has a stored record, with a sufficient balance
and a debit that succeeded, `doSave` persists exactly one record: its name is the name of the
open file, its created timestamp is that of the record stored before, its content is the
URI-encoded serialized content read after the debit and only its modified timestamp is new;
the host is then notified with the same name. -/
theorem doSave_persists_record {W : Type} (c : Collab W) (cfg : Config) (s : Sys W)
    (data : Files) (hf : s.file ≠ "default")
    (hbal : ¬ s.state.numOfTokens < (cfg.TOKEN_COST .SAVE).value)
    (hu : (updateTokenBalance c cfg .SAVE s).result = .ok ())
    (hd : Local_getFile s.store s.file = some data) :
    ∃ record : Files,
      record.name = s.file ∧ record.created = data.created ∧
      record.content =
        c.encodeURIComponent
          (c.getSpreadsheetContent (updateTokenBalance c cfg .SAVE s).sys.world).1 ∧
      record.modified =
        (c.dateToString
          (c.getSpreadsheetContent (updateTokenBalance c cfg .SAVE s).sys.world).2).1 ∧
      (doSave c cfg s).events.filter Event.isEffect =
        [Event._saveFile record, Event.updateSelectedFile s.file] ∧
      (doSave c cfg s).sys.store = Local_saveFile s.store record ∧
      Local_getFile (doSave c cfg s).sys.store s.file = some record := by
  obtain ⟨hev, hstore⟩ := (doSave_run c cfg s hf hbal).2.2 hu data hd
  refine ⟨
    { created := data.created
      modified := (c.dateToString (c.getSpreadsheetContent
        (updateTokenBalance c cfg .SAVE s).sys.world).2).1
      content := c.encodeURIComponent (c.getSpreadsheetContent
        (updateTokenBalance c cfg .SAVE s).sys.world).1
      name := s.file }, rfl, rfl, rfl, rfl, ?_, hstore, ?_⟩
  · rw [hev, List.filter_append]
    have hnone : (updateTokenBalance c cfg .SAVE s).events.filter Event.isEffect = [] := by
      rw [List.filter_eq_nil_iff]
      intro e he
      rw [updateTokenBalance_avoids c cfg .SAVE (p := Event.isEffect) (fun _ => rfl)
        (fun _ _ => rfl) (fun _ => rfl) (fun _ _ _ _ => rfl) (fun _ => rfl) (fun _ => rfl) s e he]
      simp
    rw [hnone]
    simp [List.filter, Event.isEffect]
  · rw [hstore]
    exact Local_getFile_saveFile s.store _

/-- C9 at the stored file "inv" with a balance of 5. -/
theorem doSave_persists_record_witness :
    ∃ record : Files,
      record.name = "inv" ∧ record.created = "c0" ∧
      record.content = "version%3A1.5%20cell%3AA1" ∧
      record.modified = "Thu Nov 05 2026" ∧
      (doSave scripted sampleConfig
          (sampleSys sampleScript 5 [⟨"c0", "m0", "x", "inv"⟩] "inv")).events.filter
            Event.isEffect =
        [Event._saveFile record, Event.updateSelectedFile "inv"] ∧
      (doSave scripted sampleConfig
          (sampleSys sampleScript 5 [⟨"c0", "m0", "x", "inv"⟩] "inv")).sys.store =
        Local_saveFile [⟨"c0", "m0", "x", "inv"⟩] record ∧
      Local_getFile (doSave scripted sampleConfig
          (sampleSys sampleScript 5 [⟨"c0", "m0", "x", "inv"⟩] "inv")).sys.store "inv" =
        some record :=
  doSave_persists_record scripted sampleConfig
    (sampleSys sampleScript 5 [⟨"c0", "m0", "x", "inv"⟩] "inv") ⟨"c0", "m0", "x", "inv"⟩
    (by decide) (by decide) rfl rfl

/-- C10. For every content address returned by a successful Save-As, the gateway URL shown
to the user is "https://w3s.link/ipfs/" followed by the address when the chosen method is
Storacha and "https://gateway.lighthouse.storage/ipfs/" followed by the address when it is
Lighthouse: the URL is the function `gatewayUrl` of the method and the address, and the
address is the one the backend of the chosen method returned. -/
theorem gateway_url_of_method {W : Type} (c : Collab W) (cfg : Config) (s : Sys W)
    (filename address url method : String)
    (hshow : Event.showSaveSuccessModal filename address url ∈ (doSaveAs c cfg s).events)
    (hmethod : Event.promptUploadMethod method ∈ (doSaveAs c cfg s).events) :
    url = gatewayUrl method address ∧
    (method = "storacha" → url = "https://w3s.link/ipfs/" ++ address) ∧
    (method = "lighthouse" → url = "https://gateway.lighthouse.storage/ipfs/" ++ address) ∧
    ((method = "storacha" ∧
        ∃ fileData, Event.uploadDirectory fileData (some address) ∈ (doSaveAs c cfg s).events) ∨
      (method = "lighthouse" ∧
        ∃ fileData,
          Event.lighthouseUpload fileData (some address) ∈ (doSaveAs c cfg s).events)) := by
  have hmain : url = gatewayUrl method address ∧
      ((method = "storacha" ∧
          ∃ fileData,
            Event.uploadDirectory fileData (some address) ∈ (doSaveAs c cfg s).events) ∨
        (method = "lighthouse" ∧
          ∃ fileData,
            Event.lighthouseUpload fileData (some address) ∈ (doSaveAs c cfg s).events)) := by
    by_cases hvalid : ∃ filename, (c.prompt "Enter filename:" s.world).1 = some filename ∧
        filename ≠ "" ∧ ¬ s.state.numOfTokens < (cfg.TOKEN_COST .SAVE_AS).value ∧
        _validateName filename = true
    · obtain ⟨name, hp, hne, hbal, hv⟩ := hvalid
      obtain ⟨fileData, s1, -, herr, hmid, hok⟩ := doSaveAs_valid c cfg s name hp hne hbal hv
      have hc0 := chooseAndUploadToIPFS_avoids c fileData (p := Event.isSuccessModal)
        (fun _ => rfl) (fun _ _ => rfl) (fun _ _ => rfl) (fun _ _ => rfl) (fun _ => rfl)
        (fun _ _ => rfl) (fun _ => rfl) (fun _ => rfl) (fun _ => rfl) (fun _ => rfl) s1
      cases hc : (chooseAndUploadToIPFS c fileData s1).result with
      | error m =>
        exfalso
        rw [(herr m hc).1] at hshow
        simp only [List.mem_cons, List.mem_append, List.mem_singleton, List.not_mem_nil,
          or_false] at hshow
        rcases hshow with h | h | h | h
        · cases h
        · have := hc0 _ h
          simp [Event.isSuccessModal] at this
        · cases h
        · cases h
      | ok cid =>
        have hu0 := updateTokenBalance_avoids c cfg .SAVE_AS (p := Event.isSuccessModal)
          (fun _ => rfl) (fun _ _ => rfl) (fun _ => rfl) (fun _ _ _ _ => rfl) (fun _ => rfl)
          (fun _ => rfl) (chooseAndUploadToIPFS c fileData s1).sys
        have hu1 := updateTokenBalance_avoids c cfg .SAVE_AS (p := Event.isMethodPrompt)
          (fun _ => rfl) (fun _ _ => rfl) (fun _ => rfl) (fun _ _ _ _ => rfl) (fun _ => rfl)
          (fun _ => rfl) (chooseAndUploadToIPFS c fileData s1).sys
        cases hu : (updateTokenBalance c cfg .SAVE_AS
            (chooseAndUploadToIPFS c fileData s1).sys).result with
        | error m =>
          exfalso
          rw [(hmid cid m hc hu).1] at hshow
          simp only [List.mem_cons, List.mem_append, List.mem_singleton, List.not_mem_nil,
            or_false] at hshow
          rcases hshow with h | h | h | h | h
          · cases h
          · have := hc0 _ h
            simp [Event.isSuccessModal] at this
          · have := hu0 _ h
            simp [Event.isSuccessModal] at this
          · cases h
          · cases h
        | ok u =>
          obtain ⟨record, -, hev⟩ := hok cid hc hu
          obtain ⟨hstate, hup, -, hprompt⟩ := chooseAndUploadToIPFS_ok c fileData s1 cid hc
          have hkeep := (updateTokenBalance_keeps c cfg .SAVE_AS
            (chooseAndUploadToIPFS c fileData s1).sys).2.2
          have hm : method = (c.resolveUploadMethod s1.world).1 := by
            rw [hev] at hmethod
            simp only [List.mem_cons, List.mem_append, List.mem_singleton, List.not_mem_nil,
              or_false] at hmethod
            rcases hmethod with h | h | h | h | h | h
            · cases h
            · exact hprompt method h
            · have := hu1 _ h
              simp [Event.isMethodPrompt] at this
            · cases h
            · cases h
            · cases h
          have hlast : address = cid ∧
              url = gatewayUrl (c.resolveUploadMethod s1.world).1 cid := by
            rw [hev] at hshow
            simp only [List.mem_cons, List.mem_append, List.mem_singleton, List.not_mem_nil,
              or_false] at hshow
            rcases hshow with h | h | h | h | h | h
            · cases h
            · have := hc0 _ h
              simp [Event.isSuccessModal] at this
            · have := hu0 _ h
              simp [Event.isSuccessModal] at this
            · cases h
            · cases h
            · simp only [Event.showSaveSuccessModal.injEq] at h
              rw [hkeep, hstate] at h
              exact ⟨h.2.1, h.2.2⟩
          rw [hlast.1, hm]
          refine ⟨hlast.2, ?_⟩
          have hsub : ∀ e ∈ (chooseAndUploadToIPFS c fileData s1).events,
              e ∈ (doSaveAs c cfg s).events := by
            intro e he
            rw [hev]
            simp [he]
          rcases hup with ⟨h1, h2⟩ | ⟨h1, h2⟩
          · exact Or.inl ⟨h1, fileData, hsub _ h2⟩
          · exact Or.inr ⟨h1, fileData, hsub _ h2⟩
    · exfalso
      obtain ⟨⟨l, hl, hal⟩, -⟩ := doSaveAs_early c cfg s (fun filename hp hne hbal => by
        cases hv : _validateName filename
        · rfl
        · exact absurd ⟨filename, hp, hne, hbal, hv⟩ hvalid)
      rw [hl] at hshow
      simp only [List.mem_cons] at hshow
      rcases hshow with h | h
      · cases h
      · obtain ⟨message, hmsg⟩ := hal _ h
        cases hmsg
  refine ⟨hmain.1, fun h => ?_, fun h => ?_, hmain.2⟩
  · rw [hmain.1, h]
    rfl
  · rw [hmain.1, h]
    rfl

/-- C10 at a Storacha upload that returned "bafyCid". -/
theorem gateway_url_of_method_witness :
    "https://w3s.link/ipfs/bafyCid" = gatewayUrl "storacha" "bafyCid" ∧
    ("storacha" = "storacha" → "https://w3s.link/ipfs/bafyCid" = "https://w3s.link/ipfs/" ++ "bafyCid") ∧
    ("storacha" = "lighthouse" →
      "https://w3s.link/ipfs/bafyCid" = "https://gateway.lighthouse.storage/ipfs/" ++ "bafyCid") ∧
    (("storacha" = "storacha" ∧
        ∃ fileData, Event.uploadDirectory fileData (some "bafyCid") ∈
          (doSaveAs scripted sampleConfig (sampleSys sampleScript 5 [] "default")).events) ∨
      ("storacha" = "lighthouse" ∧
        ∃ fileData, Event.lighthouseUpload fileData (some "bafyCid") ∈
          (doSaveAs scripted sampleConfig (sampleSys sampleScript 5 [] "default")).events)) :=
  gateway_url_of_method scripted sampleConfig (sampleSys sampleScript 5 [] "default")
    "report" "bafyCid" "https://w3s.link/ipfs/bafyCid" "storacha" (by decide) (by decide)

theorem inNameClass_iff (ch : Char) :
    inNameClass ch = true ↔ ch.isAlpha = true ∨ ch.isDigit = true ∨ ch = '-' ∨ ch = ' ' := by
  simp only [inNameClass, Char.isAlpha, Char.isUpper, Char.isLower, Char.isDigit,
    Bool.or_eq_true, Bool.and_eq_true, decide_eq_true_eq, beq_iff_eq, UInt32.le_def,
    Char.toNat, UInt32.toNat, BitVec.le_def,
    show 'a'.val.toBitVec.toNat = 97 from rfl, show 'z'.val.toBitVec.toNat = 122 from rfl,
    show 'A'.val.toBitVec.toNat = 65 from rfl, show 'Z'.val.toBitVec.toNat = 90 from rfl,
    show '0'.val.toBitVec.toNat = 48 from rfl, show '9'.val.toBitVec.toNat = 57 from rfl,
    show (UInt32.toBitVec 65).toNat = 65 from rfl, show (UInt32.toBitVec 90).toNat = 90 from rfl,
    show (UInt32.toBitVec 97).toNat = 97 from rfl,
    show (UInt32.toBitVec 122).toNat = 122 from rfl,
    show (UInt32.toBitVec 48).toNat = 48 from rfl, show (UInt32.toBitVec 57).toNat = 57 from rfl]
  tauto

theorem inNameClass_small (ch : Char) (h : inNameClass ch = true) : ch.toNat < 0x10000 := by
  simp only [inNameClass, Bool.or_eq_true, Bool.and_eq_true, decide_eq_true_eq, beq_iff_eq,
    show 'a'.toNat = 97 from rfl, show 'z'.toNat = 122 from rfl,
    show 'A'.toNat = 65 from rfl, show 'Z'.toNat = 90 from rfl,
    show '0'.toNat = 48 from rfl, show '9'.toNat = 57 from rfl] at h
  rcases h with (((h | h) | h) | h) | h
  · omega
  · omega
  · omega
  · rw [h]
    decide
  · rw [h]
    decide

theorem jsLength_eq_length (data : List Char) (h : ∀ ch ∈ data, inNameClass ch = true) :
    jsLength ⟨data⟩ = data.length := by
  induction data with
  | nil => rfl
  | cons head rest ih =>
    have hhead := inNameClass_small head (h head (by simp))
    have hrest := ih (fun ch hch => h ch (by simp [hch]))
    simp only [jsLength, List.map_cons, List.sum_cons, List.length_cons] at hrest ⊢
    rw [hrest, if_pos hhead]
    omega

theorem validateName_iff (s : String) : _validateName s = true ↔ ValidName (jsTrim s) := by
  simp only [_validateName, ValidName]
  generalize jsTrim s = t
  obtain ⟨data⟩ := t
  by_cases hres : (⟨data⟩ : String) = "default" ∨ (⟨data⟩ : String) = "Untitled"
  · rw [if_pos hres]
    simp only [Bool.false_eq_true, false_iff]
    rintro ⟨-, h1, h2, -⟩
    rcases hres with h | h
    · exact h1 h
    · exact h2 h
  · rw [if_neg hres]
    by_cases hempty : (⟨data⟩ : String) = ""
    · rw [if_pos hempty]
      simp only [Bool.false_eq_true, false_iff]
      rintro ⟨h0, -⟩
      exact h0 hempty
    · rw [if_neg hempty]
      by_cases hclass : ∀ ch ∈ data, inNameClass ch = true
      · have hlen := jsLength_eq_length data hclass
        have hregex : nameRegexTest ⟨data⟩ = true := by
          simp only [nameRegexTest, List.all_eq_true]
          exact hclass
        rw [hlen, hregex]
        simp only [String.length, Bool.true_eq_false, if_false]
        by_cases hlong : data.length > 30
        · rw [if_pos hlong]
          simp only [Bool.false_eq_true, false_iff]
          rintro ⟨-, -, -, h3, -⟩
          omega
        · rw [if_neg hlong]
          simp only [true_iff]
          push_neg at hres
          exact ⟨hempty, hres.1, hres.2, by omega,
            fun ch hch => (inNameClass_iff ch).mp (hclass ch hch)⟩
      · have hregex : nameRegexTest ⟨data⟩ = false := by
          rw [Bool.eq_false_iff]
          intro hall
          simp only [nameRegexTest, List.all_eq_true] at hall
          exact hclass hall
        rw [hregex]
        simp only [if_true, ite_self, Bool.false_eq_true, false_iff]
        rintro ⟨-, -, -, -, h4⟩
        exact hclass (fun ch hch => (inNameClass_iff ch).mpr (h4 ch hch))

/-- C4 fails as stated for a 31-character string: a space followed by thirty letters is
accepted, because the name is trimmed before its length is checked. -/
theorem validateName_padded_counterexample :
    (" aaaaaaaaaaaaaaaaaaaaaaaaaaaaaa").length = 31 ∧
      _validateName " aaaaaaaaaaaaaaaaaaaaaaaaaaaaaa" = true := by
  decide

/-- C4 as amended. For every string, `_validateName` returns true exactly when the trimmed
name is non-empty, is neither "default" nor "Untitled", has at most 30 characters and
consists of ASCII letters, digits, hyphens and spaces. In particular "default", "Untitled",
the empty string, every string whose trimmed form has 31 characters and "bad/name" are
rejected, and "My File-1" is accepted. -/
theorem validateName_rule :
    (∀ s, _validateName s = true ↔ ValidName (jsTrim s)) ∧
    _validateName "default" = false ∧ _validateName "Untitled" = false ∧
    _validateName "" = false ∧
    (∀ s, (jsTrim s).length = 31 → _validateName s = false) ∧
    _validateName "bad/name" = false ∧ _validateName "My File-1" = true := by
  refine ⟨validateName_iff, by decide, by decide, by decide, fun s hs => ?_, by decide,
    by decide⟩
  rw [Bool.eq_false_iff]
  intro hvalid
  have hlen := ((validateName_iff s).mp hvalid).2.2.2.1
  omega

/-- C4 as amended, at a string of 31 letters. -/
theorem validateName_rule_witness : _validateName "aaaaaaaaaaaaaaaaaaaaaaaaaaaaaaa" = false :=
  validateName_rule.2.2.2.2.1 "aaaaaaaaaaaaaaaaaaaaaaaaaaaaaaa" (by decide)

end Menu
